import Mathlib

/-!
Verification development for the pyezsnmp repository.

The embedding models the SNMP convenience layer (ezsnmp/__init__.py), the
device query facade (ezsnmp/devices/__init__.py) and the DOCSIS channel
table reconstructor (ezsnmp/devices/docsis.py).

Modelling conventions:
  - an OID is a List Nat (the tuple of sub-identifiers);
  - an SNMP value is an Int (the code only ever applies int, str or
    Decimal conversions to returned values; exact decimal division by 10
    is modelled with rational numbers);
  - the external pysnmp command generator is a record of response
    functions (one per command kind); each response is either a raised
    transport-level exception (for example the socket name-resolution
    error) or the 4-tuple (errorIndication, errorStatus, errorIndex,
    varBinds) that the oneliner API returns;
  - Python dictionaries are association lists with first-match lookup and
    in-place overwrite on insert, which preserves insertion order exactly
    as CPython does;
  - fallible Python operations (raising statements, dictionary lookups,
    sequence indexing) are modelled with Except over the PyExc type.
-/

set_option autoImplicit false

/-- Exceptions that can cross the boundaries modelled here: SNMPTimeout and
SNMPError from ezsnmp/exc.py, the socket gaierror caught in docsis.py, and
the KeyError / IndexError that Python raises on failed dictionary or
sequence lookups. -/
inductive PyExc where
  | timeout
  | gaierror
  | snmpError (status : Int) (index : Int)
  | keyError
  | indexError
deriving DecidableEq, Repr

/-- Result of one call into the external pysnmp command generator: either a
transport-level exception raised before any translation (for example
gaierror on name resolution), or the returned 4-tuple
(errorIndication, errorStatus, errorIndex, varBinds).  A var-bind is one
(OID, value) pair; each row returned by the oneliner API holds exactly one
var-bind because every query in this code requests a single OID column. -/
inductive EngineOut where
  | raised (e : PyExc)
  | resp (errorIndication : Bool) (errorStatus : Int) (errorIndex : Int)
      (varBinds : List (List Nat × Int))
deriving DecidableEq, Repr

/-- The external pysnmp command generator (cmdgen.CommandGenerator), as the
code uses it: getCmd oid, nextCmd oid, bulkCmd nonRepeaters maxRepetitions
oid, setCmd oid value.  Community and transport data are fixed per session
and therefore left implicit. -/
structure SnmpEngine where
  getCmd : List Nat → EngineOut
  nextCmd : List Nat → EngineOut
  bulkCmd : Nat → Nat → List Nat → EngineOut
  setCmd : List Nat → Int → EngineOut

/-- The configuration state of an EzSNMP session object that the modelled
methods read: the bulk flag and the bulk_count page size. -/
structure EzSNMP where
  bulk : Bool
  bulk_count : Nat
deriving DecidableEq, Repr

/-- Python dictionary lookup d[k] on an insertion-ordered association
list: first matching key wins (keys are unique by construction of
dictInsert). -/
def dictGet {κ α : Type} [DecidableEq κ] : List (κ × α) → κ → Option α
  | [], _ => none
  | (k2, v) :: rest, k => if k = k2 then some v else dictGet rest k

/-- Python dictionary assignment d[k] = v: overwrite in place when the key
exists, append at the end otherwise (CPython insertion order). -/
def dictInsert {κ α : Type} [DecidableEq κ] : List (κ × α) → κ → α → List (κ × α)
  | [], k, v => [(k, v)]
  | (k2, v2) :: rest, k, v =>
      if k = k2 then (k2, v) :: rest else (k2, v2) :: dictInsert rest k v

/-- EzSNMP.walk (ezsnmp/__init__.py lines 66-101): one call into the
engine, bulkCmd 0 bulk_count oid when self.bulk is set, nextCmd oid
otherwise; a truthy errorIndication with falsy errorStatus and errorIndex
raises SNMPTimeout, a truthy errorIndication otherwise raises
SNMPError(errorStatus, errorIndex); without errorIndication the var_binds
are returned. -/
def EzSNMP.walk (s : EzSNMP) (eng : SnmpEngine) (oid : List Nat) :
    Except PyExc (List (List Nat × Int)) :=
  match (if s.bulk then eng.bulkCmd 0 s.bulk_count oid else eng.nextCmd oid) with
  | EngineOut.raised e => Except.error e
  | EngineOut.resp ei est eidx vbs =>
      if ei then
        if est = 0 ∧ eidx = 0 then Except.error PyExc.timeout
        else Except.error (PyExc.snmpError est eidx)
      else Except.ok vbs

/-- EzSNMP.get (ezsnmp/__init__.py lines 131-150): one getCmd call with
the same error translation as walk. -/
def EzSNMP.get (s : EzSNMP) (eng : SnmpEngine) (oid : List Nat) :
    Except PyExc (List (List Nat × Int)) :=
  match eng.getCmd oid with
  | EngineOut.raised e => Except.error e
  | EngineOut.resp ei est eidx vbs =>
      if ei then
        if est = 0 ∧ eidx = 0 then Except.error PyExc.timeout
        else Except.error (PyExc.snmpError est eidx)
      else Except.ok vbs

/-- EzSNMP.set (ezsnmp/__init__.py lines 152-180): one setCmd call with
the same error translation as walk. -/
def EzSNMP.set (s : EzSNMP) (eng : SnmpEngine) (oid : List Nat) (value : Int) :
    Except PyExc (List (List Nat × Int)) :=
  match eng.setCmd oid value with
  | EngineOut.raised e => Except.error e
  | EngineOut.resp ei est eidx vbs =>
      if ei then
        if est = 0 ∧ eidx = 0 then Except.error PyExc.timeout
        else Except.error (PyExc.snmpError est eidx)
      else Except.ok vbs

/-- The loop body of EzSNMP.walk_iter (ezsnmp/__init__.py lines 117-129):
for each var-bind in the single walk response, stop (returning nothing
more) as soon as len(oid_tup) >= len(root) and oid_tup[:len(root)] != root,
otherwise yield the OID together with the converted value.  The callers
that pass convert=None are modelled by the identity conversion. -/
def walkIterFilter {α : Type} (convert : Int → α) (root : List Nat) :
    List (List Nat × Int) → List (List Nat × α)
  | [] => []
  | (o, v) :: rest =>
      if root.length ≤ o.length ∧ ¬ o.take root.length = root then []
      else (o, convert v) :: walkIterFilter convert root rest

/-- EzSNMP.walk_iter (ezsnmp/__init__.py lines 103-129): a single call to
walk on the requested root followed by the subtree filtering loop.  The
generator is modelled as the list of all pairs it yields. -/
def EzSNMP.walk_iter {α : Type} (s : EzSNMP) (eng : SnmpEngine)
    (convert : Int → α) (oid : List Nat) :
    Except PyExc (List (List Nat × α)) :=
  match s.walk eng oid with
  | Except.error e => Except.error e
  | Except.ok vbs => Except.ok (walkIterFilter convert oid vbs)

/-- SNMPv2-MIB::sysDescr.0, fetched by BaseDevice.sysdescr. -/
def SYSDESCR_OID : List Nat := [1, 3, 6, 1, 2, 1, 1, 1, 0]

/-- IF-MIB::ifOperStatus, walked by BaseDevice.walk_ifoperstatus. -/
def IFOPER_TREE : List Nat := [1, 3, 6, 1, 2, 1, 2, 2, 1, 8]

/-- ezsnmp/devices/docsis.py line 8. -/
def DOCS_DOWNSTR_TREE : List Nat := [1, 3, 6, 1, 2, 1, 10, 127, 1, 1, 1, 1]

/-- ezsnmp/devices/docsis.py line 9. -/
def DOCS_UPSTR_TREE : List Nat := [1, 3, 6, 1, 2, 1, 10, 127, 1, 1, 2, 1]

/-- DOCS-IF-MIB::docsIfSigQSignalNoise, walked by Modem.walk_downstr_snr. -/
def DOCS_SNR_TREE : List Nat := [1, 3, 6, 1, 2, 1, 10, 127, 1, 1, 4, 1, 5]

/-- DOCS-IF-MIB::docsIfSigQExtUnerroreds. -/
def DOCS_CW_UNERR_TREE : List Nat := [1, 3, 6, 1, 2, 1, 10, 127, 1, 1, 4, 1, 8]

/-- DOCS-IF-MIB::docsIfSigQExtCorrecteds. -/
def DOCS_CW_CORR_TREE : List Nat := [1, 3, 6, 1, 2, 1, 10, 127, 1, 1, 4, 1, 9]

/-- DOCS-IF-MIB::docsIfSigQExtUncorrectables. -/
def DOCS_CW_UNCORR_TREE : List Nat := [1, 3, 6, 1, 2, 1, 10, 127, 1, 1, 4, 1, 10]

/-- Builds the dictionary comprehension pattern used all over the facade:
for each yielded (oid, value) pair, d[oid[-1]] = value.  Indexing oid[-1]
raises IndexError on an empty OID. -/
def dictFromLast {α : Type} : List (List Nat × α) → List (Nat × α) →
    Except PyExc (List (Nat × α))
  | [], d => Except.ok d
  | (o, v) :: rest, d =>
      match o.getLast? with
      | none => Except.error PyExc.indexError
      | some k => dictFromLast rest (dictInsert d k v)

/-- BaseDevice.sysdescr (ezsnmp/devices/__init__.py lines 6-13):
str(self.get(sysDescr.0)[0][1]).  Indexing an empty var-bind list raises
IndexError. -/
def sysdescr (s : EzSNMP) (eng : SnmpEngine) : Except PyExc String :=
  match s.get eng SYSDESCR_OID with
  | Except.error e => Except.error e
  | Except.ok vbs =>
      match vbs.head? with
      | none => Except.error PyExc.indexError
      | some p => Except.ok (toString p.2)

/-- BaseDevice.walk_ifoperstatus (ezsnmp/devices/__init__.py lines
88-99): the dictionary oid[-1] to int(val) over a walk_iter of the
ifOperStatus subtree. -/
def walk_ifoperstatus (s : EzSNMP) (eng : SnmpEngine) :
    Except PyExc (List (Nat × Int)) :=
  match s.walk_iter eng (fun v => v) IFOPER_TREE with
  | Except.error e => Except.error e
  | Except.ok l => dictFromLast l []

/-- Modem.walk_downstr_snr (docsis.py lines 127-135): the dictionary
oid[-1] to float(Decimal(int(x))/10) over a walk_iter of the signal-noise
subtree; the exact division is modelled in the rationals. -/
def walk_downstr_snr (s : EzSNMP) (eng : SnmpEngine) :
    Except PyExc (List (Nat × ℚ)) :=
  match s.walk_iter eng (fun v => (v : ℚ) / 10) DOCS_SNR_TREE with
  | Except.error e => Except.error e
  | Except.ok l => dictFromLast l []

/-- Modem.walk_downstr_cw_unerroreds (docsis.py lines 137-145). -/
def walk_downstr_cw_unerroreds (s : EzSNMP) (eng : SnmpEngine) :
    Except PyExc (List (Nat × Int)) :=
  match s.walk_iter eng (fun v => v) DOCS_CW_UNERR_TREE with
  | Except.error e => Except.error e
  | Except.ok l => dictFromLast l []

/-- Modem.walk_downstr_cw_correcteds (docsis.py lines 147-155). -/
def walk_downstr_cw_correcteds (s : EzSNMP) (eng : SnmpEngine) :
    Except PyExc (List (Nat × Int)) :=
  match s.walk_iter eng (fun v => v) DOCS_CW_CORR_TREE with
  | Except.error e => Except.error e
  | Except.ok l => dictFromLast l []

/-- Modem.walk_downstr_cw_uncorrectables (docsis.py lines 157-166). -/
def walk_downstr_cw_uncorrectables (s : EzSNMP) (eng : SnmpEngine) :
    Except PyExc (List (Nat × Int)) :=
  match s.walk_iter eng (fun v => v) DOCS_CW_UNCORR_TREE with
  | Except.error e => Except.error e
  | Except.ok l => dictFromLast l []

/-- The value of one Modeminfo slot as seen by to_dict through getattr:
either None, a string, an int-valued dictionary, a rational-valued
dictionary, or a list of ints. -/
inductive FieldVal where
  | noneVal
  | str (v : String)
  | intDict (v : List (Int × Int))
  | ratDict (v : List (Int × ℚ))
  | intList (v : List Int)
deriving DecidableEq, Repr

/-- Modeminfo (docsis.py lines 22-107): the DOCSIS modem telemetry
record.  Field order follows __slots__. -/
structure Modeminfo where
  sysdescr : Option String
  error : Option String
  down_freq : List (Int × Int)
  down_bw : List (Int × Int)
  down_mod : List (Int × Int)
  down_power : List (Int × ℚ)
  down_non_oper : List Int
  down_snr : List (Int × ℚ)
  down_cw_unerroreds : List (Int × Int)
  down_cw_correcteds : List (Int × Int)
  down_cw_uncorrectables : List (Int × Int)
  up_freq : List (Int × Int)
  up_bw : List (Int × Int)
  up_timingoffset : List (Int × Int)
  up_non_oper : List Int
deriving DecidableEq, Repr

/-- Modeminfo.__init__ (docsis.py lines 66-107): every mapping empty,
every list empty, sysdescr and error None. -/
def Modeminfo.init : Modeminfo :=
  { sysdescr := none, error := none, down_freq := [], down_bw := [],
    down_mod := [], down_power := [], down_non_oper := [], down_snr := [],
    down_cw_unerroreds := [], down_cw_correcteds := [],
    down_cw_uncorrectables := [], up_freq := [], up_bw := [],
    up_timingoffset := [], up_non_oper := [] }

/-- Python truthiness of a slot value: None, the empty string, empty
dictionaries and empty lists are falsy, everything else is truthy. -/
def pyTruthy : FieldVal → Bool
  | FieldVal.noneVal => false
  | FieldVal.str v => ¬ v = ""
  | FieldVal.intDict v => ¬ v = []
  | FieldVal.ratDict v => ¬ v = []
  | FieldVal.intList v => ¬ v = []

/-- Wraps an optional string slot the way getattr sees it. -/
def optStrVal : Option String → FieldVal
  | none => FieldVal.noneVal
  | some v => FieldVal.str v

/-- The (slot name, getattr value) pairs of a Modeminfo in __slots__
order, exactly the sequence the to_dict loop iterates over. -/
def Modeminfo.slotVals (m : Modeminfo) : List (String × FieldVal) :=
  [("sysdescr", optStrVal m.sysdescr),
   ("error", optStrVal m.error),
   ("down_freq", FieldVal.intDict m.down_freq),
   ("down_bw", FieldVal.intDict m.down_bw),
   ("down_mod", FieldVal.intDict m.down_mod),
   ("down_power", FieldVal.ratDict m.down_power),
   ("down_non_oper", FieldVal.intList m.down_non_oper),
   ("down_snr", FieldVal.ratDict m.down_snr),
   ("down_cw_unerroreds", FieldVal.intDict m.down_cw_unerroreds),
   ("down_cw_correcteds", FieldVal.intDict m.down_cw_correcteds),
   ("down_cw_uncorrectables", FieldVal.intDict m.down_cw_uncorrectables),
   ("up_freq", FieldVal.intDict m.up_freq),
   ("up_bw", FieldVal.intDict m.up_bw),
   ("up_timingoffset", FieldVal.intDict m.up_timingoffset),
   ("up_non_oper", FieldVal.intList m.up_non_oper)]

/-- Modeminfo.to_dict (docsis.py lines 109-117): iterate the slots in
order and keep exactly the attributes whose values are truthy. -/
def Modeminfo.to_dict (m : Modeminfo) : List (String × FieldVal) :=
  m.slotVals.filter (fun p => pyTruthy p.2)

/-- One iteration of the downstream channel table loop of
Modem.get_all_info (docsis.py lines 181-215), acting on the local index
map oid2down and the record being mutated.  The OID is stripped by
oidlen = len(DOCS_DOWNSTR_TREE); oid[0] selects the MIB column, oid[1] is
the raw table row index.  Column 1 records index to logical channel
number in oid2down and performs the non-operational check against the
ifOperStatus dictionary; every other column first resolves the row index
through oid2down (line 192), which raises KeyError when that index was
never recorded, and then stores the value (2 frequency, 3 width,
4 modulation, 6 power in tenths divided exactly by 10); unrecognized
columns store nothing. -/
def downStep (if_oper : List (Nat × Int)) (oid : List Nat) (val : Int)
    (oid2down : List (Nat × Int)) (m : Modeminfo) :
    Except PyExc (List (Nat × Int) × Modeminfo) :=
  match (oid.drop DOCS_DOWNSTR_TREE.length).get? 0 with
  | none => Except.error PyExc.indexError
  | some c =>
      match (oid.drop DOCS_DOWNSTR_TREE.length).get? 1 with
      | none => Except.error PyExc.indexError
      | some i =>
          if c = 1 then
            Except.ok (dictInsert oid2down i val,
              match dictGet if_oper i with
              | some st =>
                  if ¬ st = 1 then
                    { m with down_non_oper := m.down_non_oper ++ [val] }
                  else m
              | none => m)
          else
            match dictGet oid2down i with
            | none => Except.error PyExc.keyError
            | some num =>
                if c = 2 then
                  Except.ok (oid2down,
                    { m with down_freq := dictInsert m.down_freq num val })
                else if c = 3 then
                  Except.ok (oid2down,
                    { m with down_bw := dictInsert m.down_bw num val })
                else if c = 4 then
                  Except.ok (oid2down,
                    { m with down_mod := dictInsert m.down_mod num val })
                else if c = 6 then
                  Except.ok (oid2down,
                    { m with down_power :=
                        dictInsert m.down_power num ((val : ℚ) / 10) })
                else
                  Except.ok (oid2down, m)

/-- The downstream channel table loop of Modem.get_all_info (docsis.py
lines 178-215): fold downStep over the yielded var-binds, aborting at
the first raised exception. -/
def processDown (if_oper : List (Nat × Int)) :
    List (List Nat × Int) → List (Nat × Int) → Modeminfo →
    Except PyExc (List (Nat × Int) × Modeminfo)
  | [], oid2down, m => Except.ok (oid2down, m)
  | (oid, val) :: rest, oid2down, m =>
      match downStep if_oper oid val oid2down m with
      | Except.error e => Except.error e
      | Except.ok (oid2down2, m2) => processDown if_oper rest oid2down2 m2

/-- One iteration of the upstream channel table loop of Modem.get_all_info
(docsis.py lines 221-246).  Note that line 220 sets
oidlen = len(DOCS_DOWNSTR_TREE), the downstream constant, so the strip
length here is DOCS_DOWNSTR_TREE.length.  Columns: 1 channel id (and the
non-operational check), 2 frequency, 3 width, 6 timing offset. -/
def upStep (if_oper : List (Nat × Int)) (oid : List Nat) (val : Int)
    (oid2up : List (Nat × Int)) (m : Modeminfo) :
    Except PyExc (List (Nat × Int) × Modeminfo) :=
  match (oid.drop DOCS_DOWNSTR_TREE.length).get? 0 with
  | none => Except.error PyExc.indexError
  | some c =>
      match (oid.drop DOCS_DOWNSTR_TREE.length).get? 1 with
      | none => Except.error PyExc.indexError
      | some i =>
          if c = 1 then
            Except.ok (dictInsert oid2up i val,
              match dictGet if_oper i with
              | some st =>
                  if ¬ st = 1 then
                    { m with up_non_oper := m.up_non_oper ++ [val] }
                  else m
              | none => m)
          else
            match dictGet oid2up i with
            | none => Except.error PyExc.keyError
            | some num =>
                if c = 2 then
                  Except.ok (oid2up,
                    { m with up_freq := dictInsert m.up_freq num val })
                else if c = 3 then
                  Except.ok (oid2up,
                    { m with up_bw := dictInsert m.up_bw num val })
                else if c = 6 then
                  Except.ok (oid2up,
                    { m with up_timingoffset :=
                        dictInsert m.up_timingoffset num val })
                else
                  Except.ok (oid2up, m)

/-- The upstream channel table loop of Modem.get_all_info (docsis.py
lines 217-246): fold upStep over the yielded var-binds, aborting at the
first raised exception. -/
def processUp (if_oper : List (Nat × Int)) :
    List (List Nat × Int) → List (Nat × Int) → Modeminfo →
    Except PyExc (List (Nat × Int) × Modeminfo)
  | [], oid2up, m => Except.ok (oid2up, m)
  | (oid, val) :: rest, oid2up, m =>
      match upStep if_oper oid val oid2up m with
      | Except.error e => Except.error e
      | Except.ok (oid2up2, m2) => processUp if_oper rest oid2up2 m2

/-- Re-keys a secondary per-channel dictionary through the downstream
index map, as the SNR loop (docsis.py lines 250-252) and the three
codeword dictionary comprehensions (lines 254-262) do: for each
(rawIndex, value) item, look rawIndex up in oid2down (KeyError when
absent) and store the value under the logical channel number. -/
def rekeyThrough {α : Type} (oid2down : List (Nat × Int)) :
    List (Nat × α) → List (Int × α) → Except PyExc (List (Int × α))
  | [], d => Except.ok d
  | (k, v) :: rest, d =>
      match dictGet oid2down k with
      | none => Except.error PyExc.keyError
      | some num => rekeyThrough oid2down rest (dictInsert d num v)

/-- The try-block body of Modem.get_all_info (docsis.py lines 170-262),
threading the record through each step.  The result pairs the record as
mutated so far with the exception, if any, that aborted the body; all
statements after the aborting one are skipped.  Walks are evaluated at
the point the corresponding for loop or comprehension first draws from
the generator, which coincides with the statement order used here. -/
def getAllInfoBody (s : EzSNMP) (eng : SnmpEngine) : Modeminfo × Option PyExc :=
  match sysdescr s eng with
  | Except.error e => (Modeminfo.init, some e)
  | Except.ok d =>
  match walk_ifoperstatus s eng with
  | Except.error e => ({ Modeminfo.init with sysdescr := some d }, some e)
  | Except.ok if_oper =>
  match s.walk_iter eng (fun v => v) DOCS_DOWNSTR_TREE with
  | Except.error e => ({ Modeminfo.init with sysdescr := some d }, some e)
  | Except.ok downl =>
  match processDown if_oper downl [] { Modeminfo.init with sysdescr := some d } with
  | Except.error e => ({ Modeminfo.init with sysdescr := some d }, some e)
  | Except.ok (oid2down, m2) =>
  match s.walk_iter eng (fun v => v) DOCS_UPSTR_TREE with
  | Except.error e => (m2, some e)
  | Except.ok upl =>
  match processUp if_oper upl [] m2 with
  | Except.error e => (m2, some e)
  | Except.ok (_, m3) =>
  match walk_downstr_snr s eng with
  | Except.error e => (m3, some e)
  | Except.ok snrd =>
  match rekeyThrough oid2down snrd m3.down_snr with
  | Except.error e => (m3, some e)
  | Except.ok snr2 =>
  match walk_downstr_cw_correcteds s eng with
  | Except.error e => ({ m3 with down_snr := snr2 }, some e)
  | Except.ok corrd =>
  match rekeyThrough oid2down corrd [] with
  | Except.error e => ({ m3 with down_snr := snr2 }, some e)
  | Except.ok corr2 =>
  match walk_downstr_cw_unerroreds s eng with
  | Except.error e =>
      ({ m3 with down_snr := snr2, down_cw_correcteds := corr2 }, some e)
  | Except.ok unerrd =>
  match rekeyThrough oid2down unerrd [] with
  | Except.error e =>
      ({ m3 with down_snr := snr2, down_cw_correcteds := corr2 }, some e)
  | Except.ok unerr2 =>
  match walk_downstr_cw_uncorrectables s eng with
  | Except.error e =>
      ({ m3 with down_snr := snr2, down_cw_correcteds := corr2, down_cw_unerroreds := unerr2 }, some e)
  | Except.ok uncord =>
  match rekeyThrough oid2down uncord [] with
  | Except.error e =>
      ({ m3 with down_snr := snr2, down_cw_correcteds := corr2, down_cw_unerroreds := unerr2 }, some e)
  | Except.ok uncor2 =>
  ({ m3 with down_snr := snr2, down_cw_correcteds := corr2, down_cw_unerroreds := unerr2, down_cw_uncorrectables := uncor2 }, none)

/-- Modem.get_all_info (docsis.py lines 168-272): run the body; the
except clauses catch exactly SNMPTimeout (tagging the record
snmp_timeout) and gaierror (tagging it dns_nxdomain), returning the
partially populated record in both cases; any other exception
propagates. -/
def get_all_info (s : EzSNMP) (eng : SnmpEngine) : Except PyExc Modeminfo :=
  match getAllInfoBody s eng with
  | (m, none) => Except.ok m
  | (m, some PyExc.timeout) => Except.ok { m with error := some "snmp_timeout" }
  | (m, some PyExc.gaierror) => Except.ok { m with error := some "dns_nxdomain" }
  | (_, some e) => Except.error e

/-- Modelled from the spec: the Subtree Walker algorithm as section 4.2
words it, repeatedly invoking walk starting from the last returned OID
and accumulating var-binds until traversal leaves the subtree or the
device walk ends (an empty response).  The missing piece it models is the
repeated paging the spec attributes to walk_iter, which the code under
src/ never performs.  A fuel argument bounds the recursion. -/
def walkSubtreePaged (s : EzSNMP) (eng : SnmpEngine) (root : List Nat) :
    Nat → List Nat → Except PyExc (List (List Nat × Int))
  | 0, _ => Except.ok []
  | fuel + 1, start =>
      match s.walk eng start with
      | Except.error e => Except.error e
      | Except.ok [] => Except.ok []
      | Except.ok (vb :: vbs) =>
          let keep := walkIterFilter (fun v => v) root (vb :: vbs)
          if keep.length < (vb :: vbs).length then Except.ok keep
          else
            match keep.getLast? with
            | none => Except.ok []
            | some last =>
                match walkSubtreePaged s eng root fuel last.1 with
                | Except.error e => Except.error e
                | Except.ok more => Except.ok (keep ++ more)

/-- Modelled from the spec for the refinement comparison of claim C10:
the upstream loop iteration exactly as upStep, except that the OID is
stripped by the length of the upstream table root, the length the spec
words suggest. -/
def upStepSpec (if_oper : List (Nat × Int)) (oid : List Nat) (val : Int)
    (oid2up : List (Nat × Int)) (m : Modeminfo) :
    Except PyExc (List (Nat × Int) × Modeminfo) :=
  match (oid.drop DOCS_UPSTR_TREE.length).get? 0 with
  | none => Except.error PyExc.indexError
  | some c =>
      match (oid.drop DOCS_UPSTR_TREE.length).get? 1 with
      | none => Except.error PyExc.indexError
      | some i =>
          if c = 1 then
            Except.ok (dictInsert oid2up i val,
              match dictGet if_oper i with
              | some st =>
                  if ¬ st = 1 then
                    { m with up_non_oper := m.up_non_oper ++ [val] }
                  else m
              | none => m)
          else
            match dictGet oid2up i with
            | none => Except.error PyExc.keyError
            | some num =>
                if c = 2 then
                  Except.ok (oid2up,
                    { m with up_freq := dictInsert m.up_freq num val })
                else if c = 3 then
                  Except.ok (oid2up,
                    { m with up_bw := dictInsert m.up_bw num val })
                else if c = 6 then
                  Except.ok (oid2up,
                    { m with up_timingoffset :=
                        dictInsert m.up_timingoffset num val })
                else
                  Except.ok (oid2up, m)

/-- Modelled from the spec for the refinement comparison of claim C10:
processUp with upStepSpec in place of upStep. -/
def processUpSpec (if_oper : List (Nat × Int)) :
    List (List Nat × Int) → List (Nat × Int) → Modeminfo →
    Except PyExc (List (Nat × Int) × Modeminfo)
  | [], oid2up, m => Except.ok (oid2up, m)
  | (oid, val) :: rest, oid2up, m =>
      match upStepSpec if_oper oid val oid2up m with
      | Except.error e => Except.error e
      | Except.ok (oid2up2, m2) => processUpSpec if_oper rest oid2up2 m2

/-- The values carried by the channel-ID column (column 1) of a table
walk whose OIDs are stripped by n: the logical channel numbers the loop
can ever record. -/
def col1Vals (n : Nat) (l : List (List Nat × Int)) : List Int :=
  (l.filter (fun p => (p.1.drop n).get? 0 == some 1)).map Prod.snd

/-- The downstream table walk output of a device, or the empty list when
that walk raises. -/
def downWalkList (s : EzSNMP) (eng : SnmpEngine) : List (List Nat × Int) :=
  match s.walk_iter eng (fun v => v) DOCS_DOWNSTR_TREE with
  | Except.ok l => l
  | Except.error _ => []

/-- The upstream table walk output of a device, or the empty list when
that walk raises. -/
def upWalkList (s : EzSNMP) (eng : SnmpEngine) : List (List Nat × Int) :=
  match s.walk_iter eng (fun v => v) DOCS_UPSTR_TREE with
  | Except.ok l => l
  | Except.error _ => []

/-- The ifOperStatus dictionary of a device, or the empty dictionary when
that walk raises. -/
def ifOperMap (s : EzSNMP) (eng : SnmpEngine) : List (Nat × Int) :=
  match walk_ifoperstatus s eng with
  | Except.ok d => d
  | Except.error _ => []

/-- The logical downstream channel numbers the channel-ID column of the
downstream table walk carries. -/
def downChannelIds (s : EzSNMP) (eng : SnmpEngine) : List Int :=
  col1Vals DOCS_DOWNSTR_TREE.length (downWalkList s eng)

/-- The logical upstream channel numbers the channel-ID column of the
upstream table walk carries. -/
def upChannelIds (s : EzSNMP) (eng : SnmpEngine) : List Int :=
  col1Vals DOCS_UPSTR_TREE.length (upWalkList s eng)

/-- A sequential-mode session, the configuration the Modem class
documentation prescribes for DOCSIS devices. -/
def seqSession : EzSNMP := { bulk := false, bulk_count := 40 }

/-- A bulk-mode session with the default page size. -/
def bulkSession : EzSNMP := { bulk := true, bulk_count := 40 }

/-- Shorthand for a successful engine response. -/
def okResp (v : List (List Nat × Int)) : EngineOut :=
  EngineOut.resp false 0 0 v

/-- Simulated engine whose walk at root [1, 3, 6] returns one var-bind
with the two-element OID [1, 4]: lexicographically after the subtree yet
shorter than the root, so the walk_iter guard cannot fire on it. -/
def shortOidEngine : SnmpEngine :=
  { getCmd := fun _ => okResp []
    nextCmd := fun oid => if oid = [1, 3, 6] then okResp [([1, 4], 0)] else okResp []
    bulkCmd := fun _ _ _ => okResp []
    setCmd := fun _ _ => okResp [] }

/-- Simulated engine that answers each walk request with the single next
entry of the store {[1,3,6,1]: 10, [1,3,6,2]: 20}: a paging walker would
collect both entries, while one single invocation at the root sees only
the first. -/
def pagedEngine : SnmpEngine :=
  { getCmd := fun _ => okResp []
    nextCmd := fun oid =>
      if oid = [1, 3, 6] then okResp [([1, 3, 6, 1], 10)]
      else if oid = [1, 3, 6, 1] then okResp [([1, 3, 6, 2], 20)]
      else okResp []
    bulkCmd := fun _ _ _ => okResp []
    setCmd := fun _ _ => okResp [] }

/-- The synthetic downstream table device of the spec test: downstream
rows {(1,1): 5, (2,1): 600000000, (6,1): 350}, ifOperStatus[1] = 2, and
empty upstream, signal-noise and codeword tables. -/
def synthModemEngine : SnmpEngine :=
  { getCmd := fun oid => if oid = SYSDESCR_OID then okResp [(SYSDESCR_OID, 7)] else okResp []
    nextCmd := fun oid =>
      if oid = IFOPER_TREE then okResp [(IFOPER_TREE ++ [1], 2)]
      else if oid = DOCS_DOWNSTR_TREE then
        okResp [(DOCS_DOWNSTR_TREE ++ [1, 1], 5),
                (DOCS_DOWNSTR_TREE ++ [2, 1], 600000000),
                (DOCS_DOWNSTR_TREE ++ [6, 1], 350)]
      else okResp []
    bulkCmd := fun _ _ _ => okResp []
    setCmd := fun _ _ => okResp [] }

/-- Like synthModemEngine, but the upstream table walk times out (a
truthy errorIndication with zero errorStatus and errorIndex). -/
def upTimeoutEngine : SnmpEngine :=
  { getCmd := fun oid => if oid = SYSDESCR_OID then okResp [(SYSDESCR_OID, 7)] else okResp []
    nextCmd := fun oid =>
      if oid = IFOPER_TREE then okResp [(IFOPER_TREE ++ [1], 2)]
      else if oid = DOCS_DOWNSTR_TREE then
        okResp [(DOCS_DOWNSTR_TREE ++ [1, 1], 5),
                (DOCS_DOWNSTR_TREE ++ [2, 1], 600000000),
                (DOCS_DOWNSTR_TREE ++ [6, 1], 350)]
      else if oid = DOCS_UPSTR_TREE then EngineOut.resp true 0 0 []
      else okResp []
    bulkCmd := fun _ _ _ => okResp []
    setCmd := fun _ _ => okResp [] }

/-- A device whose downstream table carries a frequency row for raw index
1 without any channel-ID row: the column 1 index map never records index
1, so the loop lookup must raise KeyError. -/
def missingIndexEngine : SnmpEngine :=
  { getCmd := fun oid => if oid = SYSDESCR_OID then okResp [(SYSDESCR_OID, 7)] else okResp []
    nextCmd := fun oid =>
      if oid = DOCS_DOWNSTR_TREE then
        okResp [(DOCS_DOWNSTR_TREE ++ [2, 1], 600000000)]
      else okResp []
    bulkCmd := fun _ _ _ => okResp []
    setCmd := fun _ _ => okResp [] }

/-- Bulk-mode half of the identical simulated device of claim C6: the
bulk page holds the in-tree entry of the store plus the beginning of the
next subtree. -/
def bulkModeEngine : SnmpEngine :=
  { getCmd := fun _ => okResp []
    nextCmd := fun _ => okResp []
    bulkCmd := fun _ _ oid =>
      if oid = [1, 3, 6] then okResp [([1, 3, 6, 1], 10), ([1, 3, 7], 9)]
      else okResp []
    setCmd := fun _ _ => okResp [] }

/-- Sequential-mode half of the identical simulated device of claim C6:
the sequential walk returns exactly the in-tree entries of the store. -/
def seqModeEngine : SnmpEngine :=
  { getCmd := fun _ => okResp []
    nextCmd := fun oid => if oid = [1, 3, 6] then okResp [([1, 3, 6, 1], 10)] else okResp []
    bulkCmd := fun _ _ _ => okResp []
    setCmd := fun _ _ => okResp [] }

/-- One simulated device store {[1,3,6,1]: 10, [1,4]: 0} exposed in both
modes: the sequential walk returns the in-tree entry, while the bulk walk
overshoots into the lexicographically next entry, whose OID [1, 4] is
shorter than the root [1, 3, 6]. -/
def shortOvershootEngine : SnmpEngine :=
  { getCmd := fun _ => okResp []
    nextCmd := fun oid => if oid = [1, 3, 6] then okResp [([1, 3, 6, 1], 10)] else okResp []
    bulkCmd := fun _ _ oid =>
      if oid = [1, 3, 6] then okResp [([1, 3, 6, 1], 10), ([1, 4], 0)]
      else okResp []
    setCmd := fun _ _ => okResp [] }

/-- An engine whose responses exercise each branch of the session error
translation: a plain timeout on get, an error indication with nonzero
status on nextCmd, and a clean var-bind list on setCmd. -/
def translationDemoEngine : SnmpEngine :=
  { getCmd := fun _ => EngineOut.resp true 0 0 []
    nextCmd := fun _ => EngineOut.resp true 3 2 []
    bulkCmd := fun _ _ _ => EngineOut.resp true 0 0 []
    setCmd := fun _ _ => okResp [([1, 2], 9)] }

theorem walkIterFilter_nil {α : Type} (convert : Int → α) (root : List Nat) :
    walkIterFilter convert root [] = [] := rfl

/-- The loop returns nothing when the first element already lies outside
the subtree boundary check. -/
theorem walkIterFilter_boundary {α : Type} (convert : Int → α) (root o : List Nat)
    (v : Int) (rest : List (List Nat × Int))
    (hlen : root.length ≤ o.length) (htake : ¬ o.take root.length = root) :
    walkIterFilter convert root ((o, v) :: rest) = [] := by
  simp [walkIterFilter, hlen, htake]

/-- Entries whose OID extends the root pass the boundary check
untouched. -/
theorem walkIterFilter_append_in_tree {α : Type} (convert : Int → α)
    (root : List Nat) (good tail : List (List Nat × Int))
    (h : ∀ q ∈ good, q.1.take root.length = root) :
    walkIterFilter convert root (good ++ tail) =
      good.map (fun q => (q.1, convert q.2)) ++ walkIterFilter convert root tail := by
  induction good with
  | nil => simp
  | cons p ps ih =>
      obtain ⟨o, v⟩ := p
      have hp : o.take root.length = root := h (o, v) (List.mem_cons_self _ _)
      have hrest : ∀ q ∈ ps, q.1.take root.length = root :=
        fun q hq => h q (List.mem_cons_of_mem _ hq)
      simp [walkIterFilter, hp, ih hrest]

/-- Every pair the loop yields comes from the response list, and its OID
extends the root or is shorter than the root. -/
theorem walkIterFilter_mem {α : Type} (convert : Int → α) (root : List Nat)
    (vbs : List (List Nat × Int)) (p : List Nat × α)
    (h : p ∈ walkIterFilter convert root vbs) :
    (p.1.take root.length = root ∨ p.1.length < root.length) ∧
      ∃ v0, (p.1, v0) ∈ vbs ∧ p.2 = convert v0 := by
  induction vbs with
  | nil => simp [walkIterFilter] at h
  | cons q rest ih =>
      obtain ⟨o, v⟩ := q
      by_cases hstop : root.length ≤ o.length ∧ ¬ o.take root.length = root
      · rw [walkIterFilter_boundary convert root o v rest hstop.1 hstop.2] at h
        simp at h
      · rw [walkIterFilter] at h
        simp only [if_neg hstop] at h
        rcases List.mem_cons.mp h with hp | hp
        · subst hp
          refine ⟨?_, v, by simp, rfl⟩
          rcases Decidable.not_and_iff_or_not.mp hstop with h1 | h2
          · exact Or.inr (Nat.lt_of_not_le h1)
          · exact Or.inl (Decidable.not_not.mp h2)
        · obtain ⟨hin, v0, hv0, hconv⟩ := ih hp
          exact ⟨hin, v0, List.mem_cons_of_mem _ hv0, hconv⟩

/-- C1 counterexample: the claim that every pair yielded by walk_iter has
the root as a prefix of its OID fails on a response whose OID is shorter
than the root: with root [1, 3, 6] the yielded OID [1, 4] lies outside
the subtree (taking root-length elements of it does not give the root,
which for lists is exactly the root-is-a-prefix test), because the stop
guard only fires on OIDs of length at least the root length. -/
theorem C1_counterexample :
    seqSession.walk_iter shortOidEngine (fun v => v) [1, 3, 6] =
        Except.ok [([1, 4], 0)] ∧
      ¬ (([1, 4] : List Nat).take ([1, 3, 6] : List Nat).length = [1, 3, 6]) ∧
      ([1, 4] : List Nat).length < ([1, 3, 6] : List Nat).length :=
  ⟨rfl, by decide, by decide⟩

/-- C1 (amended): every pair yielded by walk_iter has an OID that either
extends the root or is shorter than the root; production stops at the
first var-bind whose OID has length at least the root length and whose
first root-length elements differ from the root, excluding that element
and all later ones, so a page with K in-tree entries followed by such an
out-of-tree entry yields exactly the K in-tree pairs. -/
theorem C1_subtree_confinement_amended :
    (∀ (α : Type) (convert : Int → α) (root : List Nat)
        (vbs : List (List Nat × Int)) (p : List Nat × α),
        p ∈ walkIterFilter convert root vbs →
        p.1.take root.length = root ∨ p.1.length < root.length)
  ∧ (∀ (α : Type) (s : EzSNMP) (eng : SnmpEngine) (convert : Int → α)
        (root : List Nat) (l : List (List Nat × α)),
        s.walk_iter eng convert root = Except.ok l →
        ∀ p ∈ l, p.1.take root.length = root ∨ p.1.length < root.length)
  ∧ (∀ (α : Type) (convert : Int → α) (root obad : List Nat) (vbad : Int)
        (good rest : List (List Nat × Int)),
        (∀ q ∈ good, q.1.take root.length = root) →
        root.length ≤ obad.length → ¬ obad.take root.length = root →
        walkIterFilter convert root (good ++ (obad, vbad) :: rest) =
            good.map (fun q => (q.1, convert q.2)) ∧
          (walkIterFilter convert root (good ++ (obad, vbad) :: rest)).length =
            good.length) := by
  refine ⟨?_, ?_, ?_⟩
  · intro α convert root vbs p hp
    exact (walkIterFilter_mem convert root vbs p hp).1
  · intro α s eng convert root l hl p hp
    unfold EzSNMP.walk_iter at hl
    cases hw : s.walk eng root with
    | error e => rw [hw] at hl; exact absurd hl (by simp)
    | ok vbs =>
        rw [hw] at hl
        simp only [Except.ok.injEq] at hl
        subst hl
        exact (walkIterFilter_mem convert root vbs p hp).1
  · intro α convert root obad vbad good rest hgood hlen htake
    have hb := walkIterFilter_boundary convert root obad vbad rest hlen htake
    have ha := walkIterFilter_append_in_tree convert root good
      ((obad, vbad) :: rest) hgood
    rw [hb, List.append_nil] at ha
    exact ⟨ha, by rw [ha]; simp⟩

theorem C1_subtree_confinement_amended_witness :
    walkIterFilter (fun v => v) [1, 3, 6]
        [([1, 3, 6, 9], 4), ([1, 3, 7], 0), ([1, 3, 7, 1], 5)] =
        [([1, 3, 6, 9], 4)] ∧
      (walkIterFilter (fun v => v) [1, 3, 6]
        [([1, 3, 6, 9], 4), ([1, 3, 7], 0), ([1, 3, 7, 1], 5)]).length = 1 := by
  have h := C1_subtree_confinement_amended.2.2 Int (fun v => v) [1, 3, 6]
    [1, 3, 7] 0 [([1, 3, 6, 9], 4)] [([1, 3, 7, 1], 5)]
    (by decide) (by decide) (by decide)
  exact ⟨h.1, h.2⟩

/-- C2 counterexample: walk_iter does not implement repeated invocation
of walk from the last returned OID.  On a device that hands out one
store entry per walk call, the spec algorithm (walkSubtreePaged)
collects both entries of the store, while walk_iter, which calls walk
exactly once with the root, yields only the first. -/
theorem C2_counterexample :
    seqSession.walk_iter pagedEngine (fun v => v) [1, 3, 6] =
        Except.ok [([1, 3, 6, 1], 10)] ∧
      walkSubtreePaged seqSession pagedEngine [1, 3, 6] 5 [1, 3, 6] =
        Except.ok [([1, 3, 6, 1], 10), ([1, 3, 6, 2], 20)] ∧
      ¬ (([([1, 3, 6, 1], 10)] : List (List Nat × Int)) =
          [([1, 3, 6, 1], 10), ([1, 3, 6, 2], 20)]) :=
  ⟨rfl, rfl, by decide⟩

/-- C2 (amended): walk_iter invokes the session walk operation exactly
once, with the requested root OID (bulk or sequential per
configuration), and accumulates var-binds from that single response
until traversal leaves the subtree: its output depends only on the
engine response to that one root request (two engines agreeing there are
indistinguishable), and a successful walk response determines the output
as the filtered var-bind list. -/
theorem C2_single_invocation_amended :
    (∀ (α : Type) (s : EzSNMP) (e1 e2 : SnmpEngine) (convert : Int → α)
        (root : List Nat),
        (s.bulk = true → e1.bulkCmd 0 s.bulk_count root = e2.bulkCmd 0 s.bulk_count root) →
        (s.bulk = false → e1.nextCmd root = e2.nextCmd root) →
        s.walk_iter e1 convert root = s.walk_iter e2 convert root)
  ∧ (∀ (α : Type) (s : EzSNMP) (eng : SnmpEngine) (convert : Int → α)
        (root : List Nat) (vbs : List (List Nat × Int)),
        s.walk eng root = Except.ok vbs →
        s.walk_iter eng convert root = Except.ok (walkIterFilter convert root vbs)) := by
  constructor
  · intro α s e1 e2 convert root hbulk hseq
    unfold EzSNMP.walk_iter EzSNMP.walk
    cases hb : s.bulk with
    | true => rw [hbulk hb]; rfl
    | false => rw [hseq hb]; rfl
  · intro α s eng convert root vbs h
    unfold EzSNMP.walk_iter
    rw [h]

theorem C2_single_invocation_amended_witness :
    seqSession.walk_iter pagedEngine (fun v => v) [1, 3, 6] =
      seqSession.walk_iter seqModeEngine (fun v => v) [1, 3, 6] :=
  C2_single_invocation_amended.1 Int seqSession pagedEngine seqModeEngine
    (fun v => v) [1, 3, 6] (fun h => absurd h (by decide)) (fun _ => rfl)

/-- A response list all of whose OIDs extend the root passes through the
loop untouched apart from value conversion. -/
theorem walkIterFilter_all_in_tree {α : Type} (convert : Int → α)
    (root : List Nat) (L : List (List Nat × Int))
    (h : ∀ q ∈ L, q.1.take root.length = root) :
    walkIterFilter convert root L = L.map (fun q => (q.1, convert q.2)) := by
  have h2 := walkIterFilter_append_in_tree convert root L [] h
  rw [walkIterFilter_nil, List.append_nil, List.append_nil] at h2
  exact h2

/-- C5: for each of walk, get and set, a truthy errorIndication from the
engine with errorStatus and errorIndex both zero raises SNMPTimeout, a
truthy errorIndication with nonzero errorStatus or errorIndex raises
SNMPError carrying those two values, and with no errorIndication the
var-binds are returned. -/
theorem C5_error_translation :
    (∀ (s : EzSNMP) (eng : SnmpEngine) (oid : List Nat) (est eidx : Int)
        (vbs : List (List Nat × Int)),
        ((if s.bulk then eng.bulkCmd 0 s.bulk_count oid else eng.nextCmd oid) =
            EngineOut.resp true est eidx vbs →
          (est = 0 ∧ eidx = 0 → s.walk eng oid = Except.error PyExc.timeout) ∧
          (¬ (est = 0 ∧ eidx = 0) →
            s.walk eng oid = Except.error (PyExc.snmpError est eidx))) ∧
        ((if s.bulk then eng.bulkCmd 0 s.bulk_count oid else eng.nextCmd oid) =
            EngineOut.resp false est eidx vbs →
          s.walk eng oid = Except.ok vbs))
  ∧ (∀ (s : EzSNMP) (eng : SnmpEngine) (oid : List Nat) (est eidx : Int)
        (vbs : List (List Nat × Int)),
        (eng.getCmd oid = EngineOut.resp true est eidx vbs →
          (est = 0 ∧ eidx = 0 → s.get eng oid = Except.error PyExc.timeout) ∧
          (¬ (est = 0 ∧ eidx = 0) →
            s.get eng oid = Except.error (PyExc.snmpError est eidx))) ∧
        (eng.getCmd oid = EngineOut.resp false est eidx vbs →
          s.get eng oid = Except.ok vbs))
  ∧ (∀ (s : EzSNMP) (eng : SnmpEngine) (oid : List Nat) (value : Int)
        (est eidx : Int) (vbs : List (List Nat × Int)),
        (eng.setCmd oid value = EngineOut.resp true est eidx vbs →
          (est = 0 ∧ eidx = 0 → s.set eng oid value = Except.error PyExc.timeout) ∧
          (¬ (est = 0 ∧ eidx = 0) →
            s.set eng oid value = Except.error (PyExc.snmpError est eidx))) ∧
        (eng.setCmd oid value = EngineOut.resp false est eidx vbs →
          s.set eng oid value = Except.ok vbs)) := by
  refine ⟨?_, ?_, ?_⟩
  · intro s eng oid est eidx vbs
    constructor
    · intro h
      unfold EzSNMP.walk
      rw [h]
      constructor
      · intro hz; simp [hz]
      · intro hz; simp [hz]
    · intro h
      unfold EzSNMP.walk
      rw [h]
      rfl
  · intro s eng oid est eidx vbs
    constructor
    · intro h
      unfold EzSNMP.get
      rw [h]
      constructor
      · intro hz; simp [hz]
      · intro hz; simp [hz]
    · intro h
      unfold EzSNMP.get
      rw [h]
      rfl
  · intro s eng oid value est eidx vbs
    constructor
    · intro h
      unfold EzSNMP.set
      rw [h]
      constructor
      · intro hz; simp [hz]
      · intro hz; simp [hz]
    · intro h
      unfold EzSNMP.set
      rw [h]
      rfl

theorem C5_error_translation_witness :
    seqSession.get translationDemoEngine [1] = Except.error PyExc.timeout ∧
      seqSession.walk translationDemoEngine [1] =
        Except.error (PyExc.snmpError 3 2) ∧
      seqSession.set translationDemoEngine [1] 4 = Except.ok [([1, 2], 9)] := by
  refine ⟨?_, ?_, ?_⟩
  · exact ((C5_error_translation.2.1 seqSession translationDemoEngine [1] 0 0 []).1
      rfl).1 ⟨rfl, rfl⟩
  · exact ((C5_error_translation.1 seqSession translationDemoEngine [1] 3 2 []).1
      rfl).2 (by decide)
  · exact (C5_error_translation.2.2 seqSession translationDemoEngine [1] 4 0 0
      [([1, 2], 9)]).2 rfl

/-- C6 counterexample: bulk and sequential mode do not always yield the
same sequence over one simulated device response set.  On the store
whose bulk overshoot begins with the two-element OID [1, 4] (shorter
than the root, so the walk_iter stop guard cannot fire on it, exactly
the guard gap of claim C1), bulk mode yields the out-of-tree pair as
well while sequential mode yields only the in-tree entry. -/
theorem C6_counterexample :
    bulkSession.walk_iter shortOvershootEngine (fun v => v) [1, 3, 6] =
        Except.ok [([1, 3, 6, 1], 10), ([1, 4], 0)] ∧
      seqSession.walk_iter shortOvershootEngine (fun v => v) [1, 3, 6] =
        Except.ok [([1, 3, 6, 1], 10)] ∧
      ¬ (([([1, 3, 6, 1], 10), ([1, 4], 0)] : List (List Nat × Int)) =
          [([1, 3, 6, 1], 10)]) :=
  ⟨rfl, rfl, by decide⟩

/-- C6 (amended): over one simulated device response set where the
sequential walk returns exactly the in-tree store entries and the bulk
walk returns them plus an overshoot tail that is empty or begins with an
out-of-tree entry of length at least the root length, walk_iter yields
the same ordered pairs in bulk mode as in sequential mode; when the
overshoot begins with an OID shorter than the root the modes can differ,
as the counterexample shows. -/
theorem C6_bulk_sequential_equiv :
    ∀ (α : Type) (convert : Int → α) (s1 s2 : EzSNMP) (e1 e2 : SnmpEngine)
      (root : List Nat) (L junk : List (List Nat × Int)),
      s1.bulk = true → s2.bulk = false →
      e1.bulkCmd 0 s1.bulk_count root = EngineOut.resp false 0 0 (L ++ junk) →
      e2.nextCmd root = EngineOut.resp false 0 0 L →
      (∀ q ∈ L, q.1.take root.length = root) →
      (junk = [] ∨ ∃ o v rest2, junk = (o, v) :: rest2 ∧
        root.length ≤ o.length ∧ ¬ o.take root.length = root) →
      s1.walk_iter e1 convert root = s2.walk_iter e2 convert root := by
  intro α convert s1 s2 e1 e2 root L junk h1 h2 hb hn hL hjunk
  have hw1 : s1.walk e1 root = Except.ok (L ++ junk) := by
    unfold EzSNMP.walk
    rw [h1, hb]
    rfl
  have hw2 : s2.walk e2 root = Except.ok L := by
    unfold EzSNMP.walk
    rw [h2, hn]
    rfl
  unfold EzSNMP.walk_iter
  rw [hw1, hw2]
  show Except.ok (walkIterFilter convert root (L ++ junk)) =
    Except.ok (walkIterFilter convert root L)
  have hgood := walkIterFilter_append_in_tree convert root L junk hL
  have hall := walkIterFilter_all_in_tree convert root L hL
  rcases hjunk with hj | ⟨o, v, rest2, hj, hlen, htake⟩
  · subst hj
    rw [hgood, walkIterFilter_nil, List.append_nil, hall]
  · subst hj
    rw [hgood, walkIterFilter_boundary convert root o v rest2 hlen htake,
      List.append_nil, hall]

theorem C6_bulk_sequential_equiv_witness :
    bulkSession.walk_iter bulkModeEngine (fun v => v) [1, 3, 6] =
      seqSession.walk_iter seqModeEngine (fun v => v) [1, 3, 6] :=
  C6_bulk_sequential_equiv Int (fun v => v) bulkSession seqSession
    bulkModeEngine seqModeEngine [1, 3, 6] [([1, 3, 6, 1], 10)] [([1, 3, 7], 9)]
    rfl rfl rfl rfl (by decide)
    (Or.inr ⟨[1, 3, 7], 9, [], rfl, by decide, by decide⟩)

/-- C9: to_dict emits exactly the slot attributes whose values are truthy
(non-empty): membership in the serialized form is equivalent to being a
slot value that is non-empty, a record with no upstream data serializes
with no upstream keys, and a freshly constructed record serializes to the
empty dictionary. -/
theorem C9_empty_field_omission :
    (∀ (m : Modeminfo) (k : String) (v : FieldVal),
        (k, v) ∈ m.to_dict ↔ (k, v) ∈ m.slotVals ∧ pyTruthy v = true)
  ∧ Modeminfo.init.to_dict = []
  ∧ (∀ m : Modeminfo, m.up_freq = [] → m.up_bw = [] → m.up_timingoffset = [] →
      m.up_non_oper = [] → ∀ (k : String) (v : FieldVal), (k, v) ∈ m.to_dict →
      ¬ k = "up_freq" ∧ ¬ k = "up_bw" ∧ ¬ k = "up_timingoffset" ∧
        ¬ k = "up_non_oper") := by
  have hmem : ∀ (m : Modeminfo) (k : String) (v : FieldVal),
      (k, v) ∈ m.to_dict ↔ (k, v) ∈ m.slotVals ∧ pyTruthy v = true := by
    intro m k v
    simp [Modeminfo.to_dict, List.mem_filter]
  refine ⟨hmem, rfl, ?_⟩
  intro m h1 h2 h3 h4 k v hkv
  obtain ⟨hs, ht⟩ := (hmem m k v).mp hkv
  simp only [Modeminfo.slotVals, List.mem_cons, List.not_mem_nil, or_false,
    Prod.mk.injEq] at hs
  rcases hs with ⟨hk, hv⟩ | ⟨hk, hv⟩ | ⟨hk, hv⟩ | ⟨hk, hv⟩ | ⟨hk, hv⟩ |
    ⟨hk, hv⟩ | ⟨hk, hv⟩ | ⟨hk, hv⟩ | ⟨hk, hv⟩ | ⟨hk, hv⟩ | ⟨hk, hv⟩ |
    ⟨hk, hv⟩ | ⟨hk, hv⟩ | ⟨hk, hv⟩ | ⟨hk, hv⟩ <;> subst hk <;>
    first
      | exact ⟨by decide, by decide, by decide, by decide⟩
      | (exfalso; subst hv; simp_all [pyTruthy])

theorem dictGet_some_mem_snd {κ α : Type} [DecidableEq κ] (d : List (κ × α))
    (k : κ) (v : α) (h : dictGet d k = some v) : v ∈ d.map Prod.snd := by
  induction d with
  | nil => simp [dictGet] at h
  | cons p rest ih =>
      obtain ⟨k2, v2⟩ := p
      rw [dictGet] at h
      by_cases hk : k = k2
      · rw [if_pos hk] at h
        simp only [Option.some.injEq] at h
        simp [h]
      · rw [if_neg hk] at h
        simp [ih h]

theorem dictInsert_snd_subset {κ α : Type} [DecidableEq κ] (d : List (κ × α))
    (k : κ) (v : α) (x : α) (h : x ∈ (dictInsert d k v).map Prod.snd) :
    x ∈ d.map Prod.snd ∨ x = v := by
  induction d with
  | nil => simp [dictInsert] at h; simp [h]
  | cons p rest ih =>
      obtain ⟨k2, v2⟩ := p
      rw [dictInsert] at h
      by_cases hk : k = k2
      · rw [if_pos hk] at h
        simp only [List.map_cons, List.mem_cons] at h
        rcases h with h | h
        · exact Or.inr h
        · exact Or.inl (by simp [h])
      · rw [if_neg hk] at h
        simp only [List.map_cons, List.mem_cons] at h
        rcases h with h | h
        · exact Or.inl (by simp [h])
        · rcases ih h with h2 | h2
          · exact Or.inl (by simp [h2])
          · exact Or.inr h2

theorem dictInsert_fst_subset {κ α : Type} [DecidableEq κ] (d : List (κ × α))
    (k : κ) (v : α) (x : κ) (h : x ∈ (dictInsert d k v).map Prod.fst) :
    x ∈ d.map Prod.fst ∨ x = k := by
  induction d with
  | nil => simp [dictInsert] at h; simp [h]
  | cons p rest ih =>
      obtain ⟨k2, v2⟩ := p
      rw [dictInsert] at h
      by_cases hk : k = k2
      · rw [if_pos hk] at h
        simp only [List.map_cons, List.mem_cons] at h
        rcases h with h | h
        · exact Or.inl (by simp [h])
        · exact Or.inl (by simp [h])
      · rw [if_neg hk] at h
        simp only [List.map_cons, List.mem_cons] at h
        rcases h with h | h
        · exact Or.inl (by simp [h])
        · rcases ih h with h2 | h2
          · exact Or.inl (by simp [h2])
          · exact Or.inr h2

/-- Full case characterization of one successful downstream loop
iteration. -/
theorem downStep_cases (if_oper : List (Nat × Int)) (oid : List Nat) (val : Int)
    (o2d : List (Nat × Int)) (m : Modeminfo) (o2d2 : List (Nat × Int))
    (m2 : Modeminfo) (h : downStep if_oper oid val o2d m = Except.ok (o2d2, m2)) :
    ∃ c i, (oid.drop DOCS_DOWNSTR_TREE.length).get? 0 = some c ∧
      (oid.drop DOCS_DOWNSTR_TREE.length).get? 1 = some i ∧
      ((c = 1 ∧ o2d2 = dictInsert o2d i val ∧
         ((∃ st, dictGet if_oper i = some st ∧ ¬ st = 1 ∧
            m2 = { m with down_non_oper := m.down_non_oper ++ [val] }) ∨
          ((dictGet if_oper i = none ∨ dictGet if_oper i = some 1) ∧ m2 = m))) ∨
       (¬ c = 1 ∧ o2d2 = o2d ∧ ∃ num, dictGet o2d i = some num ∧
         ((c = 2 ∧ m2 = { m with down_freq := dictInsert m.down_freq num val }) ∨
          (c = 3 ∧ m2 = { m with down_bw := dictInsert m.down_bw num val }) ∨
          (c = 4 ∧ m2 = { m with down_mod := dictInsert m.down_mod num val }) ∨
          (c = 6 ∧
            m2 = { m with down_power := dictInsert m.down_power num ((val : ℚ) / 10) }) ∨
          (¬ c = 2 ∧ ¬ c = 3 ∧ ¬ c = 4 ∧ ¬ c = 6 ∧ m2 = m)))) := by
  unfold downStep at h
  cases h0 : (oid.drop DOCS_DOWNSTR_TREE.length).get? 0 with
  | none => rw [h0] at h; exact absurd h (by simp)
  | some c =>
  rw [h0] at h
  cases h1 : (oid.drop DOCS_DOWNSTR_TREE.length).get? 1 with
  | none => rw [h1] at h; exact absurd h (by simp)
  | some i =>
  rw [h1] at h
  refine ⟨c, i, rfl, rfl, ?_⟩
  by_cases hc : c = 1
  · simp only [if_pos hc] at h
    cases hop : dictGet if_oper i with
    | none =>
        rw [hop] at h
        simp only [Except.ok.injEq, Prod.mk.injEq] at h
        exact Or.inl ⟨hc, h.1.symm, Or.inr ⟨Or.inl rfl, h.2.symm⟩⟩
    | some st =>
        rw [hop] at h
        by_cases hst : st = 1
        · simp only [hst, not_true_eq_false, if_neg, ite_false,
            Except.ok.injEq, Prod.mk.injEq] at h
          exact Or.inl ⟨hc, h.1.symm, Or.inr ⟨Or.inr (congrArg some hst), h.2.symm⟩⟩
        · simp only [if_pos hst, Except.ok.injEq, Prod.mk.injEq] at h
          exact Or.inl ⟨hc, h.1.symm, Or.inl ⟨st, rfl, hst, h.2.symm⟩⟩
  · simp only [if_neg hc] at h
    cases hnum : dictGet o2d i with
    | none => rw [hnum] at h; exact absurd h (by simp)
    | some num =>
    rw [hnum] at h
    simp only [] at h
    by_cases hc2 : c = 2
    · rw [if_pos hc2] at h
      simp only [Except.ok.injEq, Prod.mk.injEq] at h
      exact Or.inr ⟨hc, h.1.symm, num, rfl, Or.inl ⟨hc2, h.2.symm⟩⟩
    · rw [if_neg hc2] at h
      by_cases hc3 : c = 3
      · rw [if_pos hc3] at h
        simp only [Except.ok.injEq, Prod.mk.injEq] at h
        exact Or.inr ⟨hc, h.1.symm, num, rfl, Or.inr (Or.inl ⟨hc3, h.2.symm⟩)⟩
      · rw [if_neg hc3] at h
        by_cases hc4 : c = 4
        · rw [if_pos hc4] at h
          simp only [Except.ok.injEq, Prod.mk.injEq] at h
          exact Or.inr ⟨hc, h.1.symm, num, rfl,
            Or.inr (Or.inr (Or.inl ⟨hc4, h.2.symm⟩))⟩
        · rw [if_neg hc4] at h
          by_cases hc6 : c = 6
          · rw [if_pos hc6] at h
            simp only [Except.ok.injEq, Prod.mk.injEq] at h
            exact Or.inr ⟨hc, h.1.symm, num, rfl,
              Or.inr (Or.inr (Or.inr (Or.inl ⟨hc6, h.2.symm⟩)))⟩
          · rw [if_neg hc6] at h
            simp only [Except.ok.injEq, Prod.mk.injEq] at h
            exact Or.inr ⟨hc, h.1.symm, num, rfl,
              Or.inr (Or.inr (Or.inr (Or.inr ⟨hc2, hc3, hc4, hc6, h.2.symm⟩)))⟩

/-- Invariant transfer of one successful downstream loop iteration: new
index-map values come from the old map or from a channel-ID entry, new
per-channel keys resolve through the old map, new non-operational
entries are justified by a channel-ID entry with a non-up status, and
all fields the loop does not touch are preserved. -/
theorem downStep_inv (if_oper : List (Nat × Int)) (oid : List Nat) (val : Int)
    (o2d : List (Nat × Int)) (m : Modeminfo) (o2d2 : List (Nat × Int))
    (m2 : Modeminfo) (h : downStep if_oper oid val o2d m = Except.ok (o2d2, m2)) :
    (∀ x, x ∈ o2d2.map Prod.snd → x ∈ o2d.map Prod.snd ∨
      ((oid.drop DOCS_DOWNSTR_TREE.length).get? 0 = some 1 ∧ x = val))
  ∧ (∀ k, k ∈ m2.down_freq.map Prod.fst →
      k ∈ m.down_freq.map Prod.fst ∨ k ∈ o2d.map Prod.snd)
  ∧ (∀ k, k ∈ m2.down_bw.map Prod.fst →
      k ∈ m.down_bw.map Prod.fst ∨ k ∈ o2d.map Prod.snd)
  ∧ (∀ k, k ∈ m2.down_mod.map Prod.fst →
      k ∈ m.down_mod.map Prod.fst ∨ k ∈ o2d.map Prod.snd)
  ∧ (∀ k, k ∈ m2.down_power.map Prod.fst →
      k ∈ m.down_power.map Prod.fst ∨ k ∈ o2d.map Prod.snd)
  ∧ (∀ ch, ch ∈ m2.down_non_oper → ch ∈ m.down_non_oper ∨
      ((oid.drop DOCS_DOWNSTR_TREE.length).get? 0 = some 1 ∧ val = ch ∧
        ∃ i, (oid.drop DOCS_DOWNSTR_TREE.length).get? 1 = some i ∧
          ∃ st, dictGet if_oper i = some st ∧ ¬ st = 1))
  ∧ (m2.sysdescr = m.sysdescr ∧ m2.error = m.error ∧ m2.down_snr = m.down_snr ∧
      m2.down_cw_unerroreds = m.down_cw_unerroreds ∧
      m2.down_cw_correcteds = m.down_cw_correcteds ∧
      m2.down_cw_uncorrectables = m.down_cw_uncorrectables ∧
      m2.up_freq = m.up_freq ∧ m2.up_bw = m.up_bw ∧
      m2.up_timingoffset = m.up_timingoffset ∧ m2.up_non_oper = m.up_non_oper) := by
  obtain ⟨c, i, hg0, hg1, hsc⟩ :=
    downStep_cases if_oper oid val o2d m o2d2 m2 h
  rcases hsc with ⟨hc, ho, hm⟩ | ⟨hc, ho, num, hnum, hm⟩
  · subst hc
    subst ho
    rcases hm with ⟨st, hst, hst1, hm⟩ | ⟨_, hm⟩ <;> subst hm
    · refine ⟨?_, ?_, ?_, ?_, ?_, ?_, by simp⟩
      · intro x hx
        rcases dictInsert_snd_subset o2d i val x hx with hx2 | hx2
        · exact Or.inl hx2
        · exact Or.inr ⟨hg0, hx2⟩
      · intro k hk; exact Or.inl hk
      · intro k hk; exact Or.inl hk
      · intro k hk; exact Or.inl hk
      · intro k hk; exact Or.inl hk
      · intro ch hch
        simp only [List.mem_append, List.mem_singleton] at hch
        rcases hch with hch | hch
        · exact Or.inl hch
        · exact Or.inr ⟨hg0, hch.symm, i, hg1, st, hst, hst1⟩
    · refine ⟨?_, ?_, ?_, ?_, ?_, ?_, by simp⟩
      · intro x hx
        rcases dictInsert_snd_subset o2d i val x hx with hx2 | hx2
        · exact Or.inl hx2
        · exact Or.inr ⟨hg0, hx2⟩
      · intro k hk; exact Or.inl hk
      · intro k hk; exact Or.inl hk
      · intro k hk; exact Or.inl hk
      · intro k hk; exact Or.inl hk
      · intro ch hch; exact Or.inl hch
  · subst ho
    have hmem : num ∈ o2d2.map Prod.snd := dictGet_some_mem_snd o2d2 i num hnum
    rcases hm with ⟨hc2, hm⟩ | ⟨hc3, hm⟩ | ⟨hc4, hm⟩ | ⟨hc6, hm⟩ |
      ⟨hc2, hc3, hc4, hc6, hm⟩ <;> subst hm
    · refine ⟨fun x hx => Or.inl hx, ?_, fun k hk => Or.inl hk,
        fun k hk => Or.inl hk, fun k hk => Or.inl hk,
        fun ch hch => Or.inl hch, by simp⟩
      intro k hk
      rcases dictInsert_fst_subset m.down_freq num val k hk with hk2 | hk2
      · exact Or.inl hk2
      · exact Or.inr (hk2 ▸ hmem)
    · refine ⟨fun x hx => Or.inl hx, fun k hk => Or.inl hk, ?_,
        fun k hk => Or.inl hk, fun k hk => Or.inl hk,
        fun ch hch => Or.inl hch, by simp⟩
      intro k hk
      rcases dictInsert_fst_subset m.down_bw num val k hk with hk2 | hk2
      · exact Or.inl hk2
      · exact Or.inr (hk2 ▸ hmem)
    · refine ⟨fun x hx => Or.inl hx, fun k hk => Or.inl hk,
        fun k hk => Or.inl hk, ?_, fun k hk => Or.inl hk,
        fun ch hch => Or.inl hch, by simp⟩
      intro k hk
      rcases dictInsert_fst_subset m.down_mod num val k hk with hk2 | hk2
      · exact Or.inl hk2
      · exact Or.inr (hk2 ▸ hmem)
    · refine ⟨fun x hx => Or.inl hx, fun k hk => Or.inl hk,
        fun k hk => Or.inl hk, fun k hk => Or.inl hk, ?_,
        fun ch hch => Or.inl hch, by simp⟩
      intro k hk
      rcases dictInsert_fst_subset m.down_power num ((val : ℚ) / 10) k hk with hk2 | hk2
      · exact Or.inl hk2
      · exact Or.inr (hk2 ▸ hmem)
    · exact ⟨fun x hx => Or.inl hx, fun k hk => Or.inl hk,
        fun k hk => Or.inl hk, fun k hk => Or.inl hk, fun k hk => Or.inl hk,
        fun ch hch => Or.inl hch, by simp⟩

/-- Full case characterization of one successful upstream loop
iteration. -/
theorem upStep_cases (if_oper : List (Nat × Int)) (oid : List Nat) (val : Int)
    (o2u : List (Nat × Int)) (m : Modeminfo) (o2u2 : List (Nat × Int))
    (m2 : Modeminfo) (h : upStep if_oper oid val o2u m = Except.ok (o2u2, m2)) :
    ∃ c i, (oid.drop DOCS_DOWNSTR_TREE.length).get? 0 = some c ∧
      (oid.drop DOCS_DOWNSTR_TREE.length).get? 1 = some i ∧
      ((c = 1 ∧ o2u2 = dictInsert o2u i val ∧
         ((∃ st, dictGet if_oper i = some st ∧ ¬ st = 1 ∧
            m2 = { m with up_non_oper := m.up_non_oper ++ [val] }) ∨
          ((dictGet if_oper i = none ∨ dictGet if_oper i = some 1) ∧ m2 = m))) ∨
       (¬ c = 1 ∧ o2u2 = o2u ∧ ∃ num, dictGet o2u i = some num ∧
         ((c = 2 ∧ m2 = { m with up_freq := dictInsert m.up_freq num val }) ∨
          (c = 3 ∧ m2 = { m with up_bw := dictInsert m.up_bw num val }) ∨
          (c = 6 ∧
            m2 = { m with up_timingoffset := dictInsert m.up_timingoffset num val }) ∨
          (¬ c = 2 ∧ ¬ c = 3 ∧ ¬ c = 6 ∧ m2 = m)))) := by
  unfold upStep at h
  cases h0 : (oid.drop DOCS_DOWNSTR_TREE.length).get? 0 with
  | none => rw [h0] at h; exact absurd h (by simp)
  | some c =>
  rw [h0] at h
  cases h1 : (oid.drop DOCS_DOWNSTR_TREE.length).get? 1 with
  | none => rw [h1] at h; exact absurd h (by simp)
  | some i =>
  rw [h1] at h
  refine ⟨c, i, rfl, rfl, ?_⟩
  by_cases hc : c = 1
  · simp only [if_pos hc] at h
    cases hop : dictGet if_oper i with
    | none =>
        rw [hop] at h
        simp only [Except.ok.injEq, Prod.mk.injEq] at h
        exact Or.inl ⟨hc, h.1.symm, Or.inr ⟨Or.inl rfl, h.2.symm⟩⟩
    | some st =>
        rw [hop] at h
        by_cases hst : st = 1
        · simp only [hst, not_true_eq_false, if_neg, ite_false,
            Except.ok.injEq, Prod.mk.injEq] at h
          exact Or.inl ⟨hc, h.1.symm, Or.inr ⟨Or.inr (congrArg some hst), h.2.symm⟩⟩
        · simp only [if_pos hst, Except.ok.injEq, Prod.mk.injEq] at h
          exact Or.inl ⟨hc, h.1.symm, Or.inl ⟨st, rfl, hst, h.2.symm⟩⟩
  · simp only [if_neg hc] at h
    cases hnum : dictGet o2u i with
    | none => rw [hnum] at h; exact absurd h (by simp)
    | some num =>
    rw [hnum] at h
    simp only [] at h
    by_cases hc2 : c = 2
    · rw [if_pos hc2] at h
      simp only [Except.ok.injEq, Prod.mk.injEq] at h
      exact Or.inr ⟨hc, h.1.symm, num, rfl, Or.inl ⟨hc2, h.2.symm⟩⟩
    · rw [if_neg hc2] at h
      by_cases hc3 : c = 3
      · rw [if_pos hc3] at h
        simp only [Except.ok.injEq, Prod.mk.injEq] at h
        exact Or.inr ⟨hc, h.1.symm, num, rfl, Or.inr (Or.inl ⟨hc3, h.2.symm⟩)⟩
      · rw [if_neg hc3] at h
        by_cases hc6 : c = 6
        · rw [if_pos hc6] at h
          simp only [Except.ok.injEq, Prod.mk.injEq] at h
          exact Or.inr ⟨hc, h.1.symm, num, rfl,
            Or.inr (Or.inr (Or.inl ⟨hc6, h.2.symm⟩))⟩
        · rw [if_neg hc6] at h
          simp only [Except.ok.injEq, Prod.mk.injEq] at h
          exact Or.inr ⟨hc, h.1.symm, num, rfl,
            Or.inr (Or.inr (Or.inr ⟨hc2, hc3, hc6, h.2.symm⟩))⟩

/-- Invariant transfer of one successful upstream loop iteration,
mirroring downStep_inv. -/
theorem upStep_inv (if_oper : List (Nat × Int)) (oid : List Nat) (val : Int)
    (o2u : List (Nat × Int)) (m : Modeminfo) (o2u2 : List (Nat × Int))
    (m2 : Modeminfo) (h : upStep if_oper oid val o2u m = Except.ok (o2u2, m2)) :
    (∀ x, x ∈ o2u2.map Prod.snd → x ∈ o2u.map Prod.snd ∨
      ((oid.drop DOCS_DOWNSTR_TREE.length).get? 0 = some 1 ∧ x = val))
  ∧ (∀ k, k ∈ m2.up_freq.map Prod.fst →
      k ∈ m.up_freq.map Prod.fst ∨ k ∈ o2u.map Prod.snd)
  ∧ (∀ k, k ∈ m2.up_bw.map Prod.fst →
      k ∈ m.up_bw.map Prod.fst ∨ k ∈ o2u.map Prod.snd)
  ∧ (∀ k, k ∈ m2.up_timingoffset.map Prod.fst →
      k ∈ m.up_timingoffset.map Prod.fst ∨ k ∈ o2u.map Prod.snd)
  ∧ (∀ ch, ch ∈ m2.up_non_oper → ch ∈ m.up_non_oper ∨
      ((oid.drop DOCS_DOWNSTR_TREE.length).get? 0 = some 1 ∧ val = ch ∧
        ∃ i, (oid.drop DOCS_DOWNSTR_TREE.length).get? 1 = some i ∧
          ∃ st, dictGet if_oper i = some st ∧ ¬ st = 1))
  ∧ (m2.sysdescr = m.sysdescr ∧ m2.error = m.error ∧
      m2.down_freq = m.down_freq ∧ m2.down_bw = m.down_bw ∧
      m2.down_mod = m.down_mod ∧ m2.down_power = m.down_power ∧
      m2.down_non_oper = m.down_non_oper ∧ m2.down_snr = m.down_snr ∧
      m2.down_cw_unerroreds = m.down_cw_unerroreds ∧
      m2.down_cw_correcteds = m.down_cw_correcteds ∧
      m2.down_cw_uncorrectables = m.down_cw_uncorrectables) := by
  obtain ⟨c, i, hg0, hg1, hsc⟩ := upStep_cases if_oper oid val o2u m o2u2 m2 h
  rcases hsc with ⟨hc, ho, hm⟩ | ⟨hc, ho, num, hnum, hm⟩
  · subst hc
    subst ho
    rcases hm with ⟨st, hst, hst1, hm⟩ | ⟨_, hm⟩ <;> subst hm
    · refine ⟨?_, ?_, ?_, ?_, ?_, by simp⟩
      · intro x hx
        rcases dictInsert_snd_subset o2u i val x hx with hx2 | hx2
        · exact Or.inl hx2
        · exact Or.inr ⟨hg0, hx2⟩
      · intro k hk; exact Or.inl hk
      · intro k hk; exact Or.inl hk
      · intro k hk; exact Or.inl hk
      · intro ch hch
        simp only [List.mem_append, List.mem_singleton] at hch
        rcases hch with hch | hch
        · exact Or.inl hch
        · exact Or.inr ⟨hg0, hch.symm, i, hg1, st, hst, hst1⟩
    · refine ⟨?_, ?_, ?_, ?_, ?_, by simp⟩
      · intro x hx
        rcases dictInsert_snd_subset o2u i val x hx with hx2 | hx2
        · exact Or.inl hx2
        · exact Or.inr ⟨hg0, hx2⟩
      · intro k hk; exact Or.inl hk
      · intro k hk; exact Or.inl hk
      · intro k hk; exact Or.inl hk
      · intro ch hch; exact Or.inl hch
  · subst ho
    have hmem : num ∈ o2u2.map Prod.snd := dictGet_some_mem_snd o2u2 i num hnum
    rcases hm with ⟨hc2, hm⟩ | ⟨hc3, hm⟩ | ⟨hc6, hm⟩ |
      ⟨hc2, hc3, hc6, hm⟩ <;> subst hm
    · refine ⟨fun x hx => Or.inl hx, ?_, fun k hk => Or.inl hk,
        fun k hk => Or.inl hk, fun ch hch => Or.inl hch, by simp⟩
      intro k hk
      rcases dictInsert_fst_subset m.up_freq num val k hk with hk2 | hk2
      · exact Or.inl hk2
      · exact Or.inr (hk2 ▸ hmem)
    · refine ⟨fun x hx => Or.inl hx, fun k hk => Or.inl hk, ?_,
        fun k hk => Or.inl hk, fun ch hch => Or.inl hch, by simp⟩
      intro k hk
      rcases dictInsert_fst_subset m.up_bw num val k hk with hk2 | hk2
      · exact Or.inl hk2
      · exact Or.inr (hk2 ▸ hmem)
    · refine ⟨fun x hx => Or.inl hx, fun k hk => Or.inl hk,
        fun k hk => Or.inl hk, ?_, fun ch hch => Or.inl hch, by simp⟩
      intro k hk
      rcases dictInsert_fst_subset m.up_timingoffset num val k hk with hk2 | hk2
      · exact Or.inl hk2
      · exact Or.inr (hk2 ▸ hmem)
    · exact ⟨fun x hx => Or.inl hx, fun k hk => Or.inl hk,
        fun k hk => Or.inl hk, fun k hk => Or.inl hk,
        fun ch hch => Or.inl hch, by simp⟩

theorem col1Vals_mem_cons (n : Nat) (p : List Nat × Int)
    (l : List (List Nat × Int)) (x : Int) :
    x ∈ col1Vals n (p :: l) ↔
      (((p.1.drop n).get? 0 = some 1 ∧ x = p.2) ∨ x ∈ col1Vals n l) := by
  unfold col1Vals
  rw [List.filter_cons]
  by_cases hp : ((p.1.drop n).get? 0 == some 1) = true
  · rw [if_pos hp]
    rw [List.map_cons, List.mem_cons]
    rw [beq_iff_eq] at hp
    constructor
    · rintro (h | h)
      · exact Or.inl ⟨hp, h⟩
      · exact Or.inr h
    · rintro (⟨_, h⟩ | h)
      · exact Or.inl h
      · exact Or.inr h
  · rw [if_neg hp]
    rw [beq_iff_eq] at hp
    constructor
    · intro h
      exact Or.inr h
    · rintro (⟨h1, _⟩ | h)
      · exact absurd h1 hp
      · exact h

/-- Loop invariant of the downstream table loop: final index-map values
come from the initial map or the channel-ID column of the processed
list, final per-channel keys resolve through those, non-operational
entries are justified by a channel-ID entry with a non-up interface
status, and untouched fields are preserved. -/
theorem processDown_inv (if_oper : List (Nat × Int)) :
    ∀ (l : List (List Nat × Int)) (o2d : List (Nat × Int)) (m : Modeminfo)
      (o2d2 : List (Nat × Int)) (m2 : Modeminfo),
    processDown if_oper l o2d m = Except.ok (o2d2, m2) →
    (∀ x, x ∈ o2d2.map Prod.snd →
        x ∈ o2d.map Prod.snd ∨ x ∈ col1Vals DOCS_DOWNSTR_TREE.length l)
  ∧ (∀ k, k ∈ m2.down_freq.map Prod.fst → k ∈ m.down_freq.map Prod.fst ∨
        k ∈ o2d.map Prod.snd ∨ k ∈ col1Vals DOCS_DOWNSTR_TREE.length l)
  ∧ (∀ k, k ∈ m2.down_bw.map Prod.fst → k ∈ m.down_bw.map Prod.fst ∨
        k ∈ o2d.map Prod.snd ∨ k ∈ col1Vals DOCS_DOWNSTR_TREE.length l)
  ∧ (∀ k, k ∈ m2.down_mod.map Prod.fst → k ∈ m.down_mod.map Prod.fst ∨
        k ∈ o2d.map Prod.snd ∨ k ∈ col1Vals DOCS_DOWNSTR_TREE.length l)
  ∧ (∀ k, k ∈ m2.down_power.map Prod.fst → k ∈ m.down_power.map Prod.fst ∨
        k ∈ o2d.map Prod.snd ∨ k ∈ col1Vals DOCS_DOWNSTR_TREE.length l)
  ∧ (∀ ch, ch ∈ m2.down_non_oper → ch ∈ m.down_non_oper ∨
        ∃ p, p ∈ l ∧ (p.1.drop DOCS_DOWNSTR_TREE.length).get? 0 = some 1 ∧
          p.2 = ch ∧ ∃ i, (p.1.drop DOCS_DOWNSTR_TREE.length).get? 1 = some i ∧
            ∃ st, dictGet if_oper i = some st ∧ ¬ st = 1)
  ∧ (m2.sysdescr = m.sysdescr ∧ m2.error = m.error ∧ m2.down_snr = m.down_snr ∧
      m2.down_cw_unerroreds = m.down_cw_unerroreds ∧
      m2.down_cw_correcteds = m.down_cw_correcteds ∧
      m2.down_cw_uncorrectables = m.down_cw_uncorrectables ∧
      m2.up_freq = m.up_freq ∧ m2.up_bw = m.up_bw ∧
      m2.up_timingoffset = m.up_timingoffset ∧ m2.up_non_oper = m.up_non_oper) := by
  intro l
  induction l with
  | nil =>
      intro o2d m o2d2 m2 h
      simp only [processDown, Except.ok.injEq, Prod.mk.injEq] at h
      obtain ⟨h1, h2⟩ := h
      subst h1
      subst h2
      exact ⟨fun x hx => Or.inl hx, fun k hk => Or.inl hk, fun k hk => Or.inl hk,
        fun k hk => Or.inl hk, fun k hk => Or.inl hk, fun ch hch => Or.inl hch,
        rfl, rfl, rfl, rfl, rfl, rfl, rfl, rfl, rfl, rfl⟩
  | cons p rest ih =>
      intro o2d m o2d2 m2 h
      obtain ⟨oid, val⟩ := p
      simp only [processDown] at h
      cases hstep : downStep if_oper oid val o2d m with
      | error e => rw [hstep] at h; exact absurd h (by simp)
      | ok s1 =>
          obtain ⟨o2d1, m1⟩ := s1
          rw [hstep] at h
          simp only [] at h
          have IH := ih o2d1 m1 o2d2 m2 h
          have SI := downStep_inv if_oper oid val o2d m o2d1 m1 hstep
          obtain ⟨sA, sF, sB, sM, sP, sN, sFr⟩ := SI
          obtain ⟨iA, iF, iB, iM, iP, iN, iFr⟩ := IH
          obtain ⟨s1, s2, s3, s4, s5, s6, s7, s8, s9, s10⟩ := sFr
          obtain ⟨i1, i2, i3, i4, i5, i6, i7, i8, i9, i10⟩ := iFr
          refine ⟨?_, ?_, ?_, ?_, ?_, ?_,
            i1.trans s1, i2.trans s2, i3.trans s3, i4.trans s4, i5.trans s5,
            i6.trans s6, i7.trans s7, i8.trans s8, i9.trans s9, i10.trans s10⟩
          · intro x hx
            rcases iA x hx with hx1 | hx1
            · rcases sA x hx1 with hx2 | hx2
              · exact Or.inl hx2
              · exact Or.inr ((col1Vals_mem_cons _ _ _ _).mpr (Or.inl ⟨hx2.1, hx2.2⟩))
            · exact Or.inr ((col1Vals_mem_cons _ _ _ _).mpr (Or.inr hx1))
          · intro k hk
            rcases iF k hk with hk1 | hk1 | hk1
            · rcases sF k hk1 with hk2 | hk2
              · exact Or.inl hk2
              · exact Or.inr (Or.inl hk2)
            · rcases sA k hk1 with hk2 | hk2
              · exact Or.inr (Or.inl hk2)
              · exact Or.inr (Or.inr
                  ((col1Vals_mem_cons _ _ _ _).mpr (Or.inl ⟨hk2.1, hk2.2⟩)))
            · exact Or.inr (Or.inr ((col1Vals_mem_cons _ _ _ _).mpr (Or.inr hk1)))
          · intro k hk
            rcases iB k hk with hk1 | hk1 | hk1
            · rcases sB k hk1 with hk2 | hk2
              · exact Or.inl hk2
              · exact Or.inr (Or.inl hk2)
            · rcases sA k hk1 with hk2 | hk2
              · exact Or.inr (Or.inl hk2)
              · exact Or.inr (Or.inr
                  ((col1Vals_mem_cons _ _ _ _).mpr (Or.inl ⟨hk2.1, hk2.2⟩)))
            · exact Or.inr (Or.inr ((col1Vals_mem_cons _ _ _ _).mpr (Or.inr hk1)))
          · intro k hk
            rcases iM k hk with hk1 | hk1 | hk1
            · rcases sM k hk1 with hk2 | hk2
              · exact Or.inl hk2
              · exact Or.inr (Or.inl hk2)
            · rcases sA k hk1 with hk2 | hk2
              · exact Or.inr (Or.inl hk2)
              · exact Or.inr (Or.inr
                  ((col1Vals_mem_cons _ _ _ _).mpr (Or.inl ⟨hk2.1, hk2.2⟩)))
            · exact Or.inr (Or.inr ((col1Vals_mem_cons _ _ _ _).mpr (Or.inr hk1)))
          · intro k hk
            rcases iP k hk with hk1 | hk1 | hk1
            · rcases sP k hk1 with hk2 | hk2
              · exact Or.inl hk2
              · exact Or.inr (Or.inl hk2)
            · rcases sA k hk1 with hk2 | hk2
              · exact Or.inr (Or.inl hk2)
              · exact Or.inr (Or.inr
                  ((col1Vals_mem_cons _ _ _ _).mpr (Or.inl ⟨hk2.1, hk2.2⟩)))
            · exact Or.inr (Or.inr ((col1Vals_mem_cons _ _ _ _).mpr (Or.inr hk1)))
          · intro ch hch
            rcases iN ch hch with hch1 | ⟨p, hp, hrest⟩
            · rcases sN ch hch1 with hch2 | ⟨hg0, hval, i, hg1, st, hst, hst1⟩
              · exact Or.inl hch2
              · exact Or.inr ⟨(oid, val), List.mem_cons_self _ _, hg0, hval,
                  i, hg1, st, hst, hst1⟩
            · exact Or.inr ⟨p, List.mem_cons_of_mem _ hp, hrest⟩

/-- Loop invariant of the upstream table loop, mirroring
processDown_inv. -/
theorem processUp_inv (if_oper : List (Nat × Int)) :
    ∀ (l : List (List Nat × Int)) (o2u : List (Nat × Int)) (m : Modeminfo)
      (o2u2 : List (Nat × Int)) (m2 : Modeminfo),
    processUp if_oper l o2u m = Except.ok (o2u2, m2) →
    (∀ x, x ∈ o2u2.map Prod.snd →
        x ∈ o2u.map Prod.snd ∨ x ∈ col1Vals DOCS_DOWNSTR_TREE.length l)
  ∧ (∀ k, k ∈ m2.up_freq.map Prod.fst → k ∈ m.up_freq.map Prod.fst ∨
        k ∈ o2u.map Prod.snd ∨ k ∈ col1Vals DOCS_DOWNSTR_TREE.length l)
  ∧ (∀ k, k ∈ m2.up_bw.map Prod.fst → k ∈ m.up_bw.map Prod.fst ∨
        k ∈ o2u.map Prod.snd ∨ k ∈ col1Vals DOCS_DOWNSTR_TREE.length l)
  ∧ (∀ k, k ∈ m2.up_timingoffset.map Prod.fst → k ∈ m.up_timingoffset.map Prod.fst ∨
        k ∈ o2u.map Prod.snd ∨ k ∈ col1Vals DOCS_DOWNSTR_TREE.length l)
  ∧ (∀ ch, ch ∈ m2.up_non_oper → ch ∈ m.up_non_oper ∨
        ∃ p, p ∈ l ∧ (p.1.drop DOCS_DOWNSTR_TREE.length).get? 0 = some 1 ∧
          p.2 = ch ∧ ∃ i, (p.1.drop DOCS_DOWNSTR_TREE.length).get? 1 = some i ∧
            ∃ st, dictGet if_oper i = some st ∧ ¬ st = 1)
  ∧ (m2.sysdescr = m.sysdescr ∧ m2.error = m.error ∧
      m2.down_freq = m.down_freq ∧ m2.down_bw = m.down_bw ∧
      m2.down_mod = m.down_mod ∧ m2.down_power = m.down_power ∧
      m2.down_non_oper = m.down_non_oper ∧ m2.down_snr = m.down_snr ∧
      m2.down_cw_unerroreds = m.down_cw_unerroreds ∧
      m2.down_cw_correcteds = m.down_cw_correcteds ∧
      m2.down_cw_uncorrectables = m.down_cw_uncorrectables) := by
  intro l
  induction l with
  | nil =>
      intro o2u m o2u2 m2 h
      simp only [processUp, Except.ok.injEq, Prod.mk.injEq] at h
      obtain ⟨h1, h2⟩ := h
      subst h1
      subst h2
      exact ⟨fun x hx => Or.inl hx, fun k hk => Or.inl hk, fun k hk => Or.inl hk,
        fun k hk => Or.inl hk, fun ch hch => Or.inl hch,
        rfl, rfl, rfl, rfl, rfl, rfl, rfl, rfl, rfl, rfl, rfl⟩
  | cons p rest ih =>
      intro o2u m o2u2 m2 h
      obtain ⟨oid, val⟩ := p
      simp only [processUp] at h
      cases hstep : upStep if_oper oid val o2u m with
      | error e => rw [hstep] at h; exact absurd h (by simp)
      | ok s1 =>
          obtain ⟨o2u1, m1⟩ := s1
          rw [hstep] at h
          simp only [] at h
          have IH := ih o2u1 m1 o2u2 m2 h
          have SI := upStep_inv if_oper oid val o2u m o2u1 m1 hstep
          obtain ⟨sA, sF, sB, sT, sN, sFr⟩ := SI
          obtain ⟨iA, iF, iB, iT, iN, iFr⟩ := IH
          obtain ⟨s1, s2, s3, s4, s5, s6, s7, s8, s9, s10, s11⟩ := sFr
          obtain ⟨i1, i2, i3, i4, i5, i6, i7, i8, i9, i10, i11⟩ := iFr
          refine ⟨?_, ?_, ?_, ?_, ?_,
            i1.trans s1, i2.trans s2, i3.trans s3, i4.trans s4, i5.trans s5,
            i6.trans s6, i7.trans s7, i8.trans s8, i9.trans s9, i10.trans s10,
            i11.trans s11⟩
          · intro x hx
            rcases iA x hx with hx1 | hx1
            · rcases sA x hx1 with hx2 | hx2
              · exact Or.inl hx2
              · exact Or.inr ((col1Vals_mem_cons _ _ _ _).mpr (Or.inl ⟨hx2.1, hx2.2⟩))
            · exact Or.inr ((col1Vals_mem_cons _ _ _ _).mpr (Or.inr hx1))
          · intro k hk
            rcases iF k hk with hk1 | hk1 | hk1
            · rcases sF k hk1 with hk2 | hk2
              · exact Or.inl hk2
              · exact Or.inr (Or.inl hk2)
            · rcases sA k hk1 with hk2 | hk2
              · exact Or.inr (Or.inl hk2)
              · exact Or.inr (Or.inr
                  ((col1Vals_mem_cons _ _ _ _).mpr (Or.inl ⟨hk2.1, hk2.2⟩)))
            · exact Or.inr (Or.inr ((col1Vals_mem_cons _ _ _ _).mpr (Or.inr hk1)))
          · intro k hk
            rcases iB k hk with hk1 | hk1 | hk1
            · rcases sB k hk1 with hk2 | hk2
              · exact Or.inl hk2
              · exact Or.inr (Or.inl hk2)
            · rcases sA k hk1 with hk2 | hk2
              · exact Or.inr (Or.inl hk2)
              · exact Or.inr (Or.inr
                  ((col1Vals_mem_cons _ _ _ _).mpr (Or.inl ⟨hk2.1, hk2.2⟩)))
            · exact Or.inr (Or.inr ((col1Vals_mem_cons _ _ _ _).mpr (Or.inr hk1)))
          · intro k hk
            rcases iT k hk with hk1 | hk1 | hk1
            · rcases sT k hk1 with hk2 | hk2
              · exact Or.inl hk2
              · exact Or.inr (Or.inl hk2)
            · rcases sA k hk1 with hk2 | hk2
              · exact Or.inr (Or.inl hk2)
              · exact Or.inr (Or.inr
                  ((col1Vals_mem_cons _ _ _ _).mpr (Or.inl ⟨hk2.1, hk2.2⟩)))
            · exact Or.inr (Or.inr ((col1Vals_mem_cons _ _ _ _).mpr (Or.inr hk1)))
          · intro ch hch
            rcases iN ch hch with hch1 | ⟨p, hp, hrest⟩
            · rcases sN ch hch1 with hch2 | ⟨hg0, hval, i, hg1, st, hst, hst1⟩
              · exact Or.inl hch2
              · exact Or.inr ⟨(oid, val), List.mem_cons_self _ _, hg0, hval,
                  i, hg1, st, hst, hst1⟩
            · exact Or.inr ⟨p, List.mem_cons_of_mem _ hp, hrest⟩

/-- Keys of a re-keyed secondary table come from the initial dictionary
or from the values of the downstream index map. -/
theorem rekeyThrough_keys {α : Type} (o2d : List (Nat × Int)) :
    ∀ (l : List (Nat × α)) (d d2 : List (Int × α)),
    rekeyThrough o2d l d = Except.ok d2 →
    ∀ k, k ∈ d2.map Prod.fst → k ∈ d.map Prod.fst ∨ k ∈ o2d.map Prod.snd := by
  intro l
  induction l with
  | nil =>
      intro d d2 h k hk
      simp only [rekeyThrough, Except.ok.injEq] at h
      subst h
      exact Or.inl hk
  | cons p rest ih =>
      intro d d2 h k hk
      obtain ⟨kk, v⟩ := p
      simp only [rekeyThrough] at h
      cases hnum : dictGet o2d kk with
      | none => rw [hnum] at h; exact absurd h (by simp)
      | some num =>
          rw [hnum] at h
          simp only [] at h
          rcases ih (dictInsert d num v) d2 h k hk with h2 | h2
          · rcases dictInsert_fst_subset d num v k h2 with h3 | h3
            · exact Or.inl h3
            · exact Or.inr (h3 ▸ dictGet_some_mem_snd o2d kk num hnum)
          · exact Or.inr h2

theorem processDown_append (if_oper : List (Nat × Int)) :
    ∀ (l1 l2 : List (List Nat × Int)) (o2d : List (Nat × Int)) (m : Modeminfo),
    processDown if_oper (l1 ++ l2) o2d m =
      (match processDown if_oper l1 o2d m with
       | Except.error e => Except.error e
       | Except.ok (o2d1, m1) => processDown if_oper l2 o2d1 m1) := by
  intro l1
  induction l1 with
  | nil => intro l2 o2d m; rfl
  | cons p rest ih =>
      intro l2 o2d m
      obtain ⟨oid, val⟩ := p
      rw [List.cons_append]
      simp only [processDown]
      cases hstep : downStep if_oper oid val o2d m with
      | error e => rfl
      | ok s1 =>
          obtain ⟨o2d1, m1⟩ := s1
          exact ih l2 o2d1 m1

theorem processUp_append (if_oper : List (Nat × Int)) :
    ∀ (l1 l2 : List (List Nat × Int)) (o2u : List (Nat × Int)) (m : Modeminfo),
    processUp if_oper (l1 ++ l2) o2u m =
      (match processUp if_oper l1 o2u m with
       | Except.error e => Except.error e
       | Except.ok (o2u1, m1) => processUp if_oper l2 o2u1 m1) := by
  intro l1
  induction l1 with
  | nil => intro l2 o2u m; rfl
  | cons p rest ih =>
      intro l2 o2u m
      obtain ⟨oid, val⟩ := p
      rw [List.cons_append]
      simp only [processUp]
      cases hstep : upStep if_oper oid val o2u m with
      | error e => rfl
      | ok s1 =>
          obtain ⟨o2u1, m1⟩ := s1
          exact ih l2 o2u1 m1

theorem rekeyThrough_append {α : Type} (o2d : List (Nat × Int)) :
    ∀ (l1 l2 : List (Nat × α)) (d : List (Int × α)),
    rekeyThrough o2d (l1 ++ l2) d =
      (match rekeyThrough o2d l1 d with
       | Except.error e => Except.error e
       | Except.ok d1 => rekeyThrough o2d l2 d1) := by
  intro l1
  induction l1 with
  | nil => intro l2 d; rfl
  | cons p rest ih =>
      intro l2 d
      obtain ⟨kk, v⟩ := p
      rw [List.cons_append]
      simp only [rekeyThrough]
      cases hnum : dictGet o2d kk with
      | none => rfl
      | some num => exact ih l2 (dictInsert d num v)

/-- C10: the upstream loop strips OIDs with the length of the downstream
table root constant (docsis.py line 220); since both root constants have
length 12, the loop is extensionally equal to the variant that strips
with the upstream root length. -/
theorem C10_upstream_strip_equivalence :
    DOCS_DOWNSTR_TREE.length = 12 ∧ DOCS_UPSTR_TREE.length = 12 ∧
    (∀ (if_oper : List (Nat × Int)) (oid : List Nat) (val : Int)
        (o2u : List (Nat × Int)) (m : Modeminfo),
        upStep if_oper oid val o2u m = upStepSpec if_oper oid val o2u m) ∧
    (∀ (if_oper : List (Nat × Int)) (l : List (List Nat × Int))
        (o2u : List (Nat × Int)) (m : Modeminfo),
        processUp if_oper l o2u m = processUpSpec if_oper l o2u m) := by
  refine ⟨rfl, rfl, fun _ _ _ _ _ => rfl, ?_⟩
  intro if_oper l
  induction l with
  | nil => intro o2u m; rfl
  | cons p rest ih =>
      intro o2u m
      obtain ⟨oid, val⟩ := p
      simp only [processUp, processUpSpec]
      have hstep : upStepSpec if_oper oid val o2u m = upStep if_oper oid val o2u m := rfl
      rw [hstep]
      cases h2 : upStep if_oper oid val o2u m with
      | error e => rfl
      | ok s1 =>
          obtain ⟨o2u1, m1⟩ := s1
          simp only []
          exact ih o2u1 m1

/-- C3: on the synthetic downstream table {(1,1): 5, (2,1): 600000000,
(6,1): 350} with ifOperStatus[1] = 2, get_all_info reconstructs
down_freq[5] = 600000000, down_power[5] = 35 and 5 in down_non_oper; in
general a channel-ID row (column 1) records index to logical channel in
the local index map (appending to down_non_oper exactly when the
interface status resolves to non-up), a frequency row (column 2) stores
its value keyed by the mapped logical channel, and a power row (column
6) stores its value divided by 10 with exact arithmetic, keyed the same
way. -/
theorem C3_channel_table_join :
    (get_all_info seqSession synthModemEngine =
      Except.ok { Modeminfo.init with
        sysdescr := some (toString (7 : Int)), down_freq := [(5, 600000000)],
        down_power := [(5, 35)], down_non_oper := [5] })
  ∧ (∀ (if_oper : List (Nat × Int)) (oid : List Nat) (val : Int)
        (o2d : List (Nat × Int)) (m : Modeminfo) (i : Nat) (st : Int),
        (oid.drop DOCS_DOWNSTR_TREE.length).get? 0 = some 1 →
        (oid.drop DOCS_DOWNSTR_TREE.length).get? 1 = some i →
        dictGet if_oper i = some st → ¬ st = 1 →
        downStep if_oper oid val o2d m =
          Except.ok (dictInsert o2d i val,
            { m with down_non_oper := m.down_non_oper ++ [val] }))
  ∧ (∀ (if_oper : List (Nat × Int)) (oid : List Nat) (val : Int)
        (o2d : List (Nat × Int)) (m : Modeminfo) (i : Nat) (num : Int),
        (oid.drop DOCS_DOWNSTR_TREE.length).get? 0 = some 2 →
        (oid.drop DOCS_DOWNSTR_TREE.length).get? 1 = some i →
        dictGet o2d i = some num →
        downStep if_oper oid val o2d m =
          Except.ok (o2d, { m with down_freq := dictInsert m.down_freq num val }))
  ∧ (∀ (if_oper : List (Nat × Int)) (oid : List Nat) (val : Int)
        (o2d : List (Nat × Int)) (m : Modeminfo) (i : Nat) (num : Int),
        (oid.drop DOCS_DOWNSTR_TREE.length).get? 0 = some 6 →
        (oid.drop DOCS_DOWNSTR_TREE.length).get? 1 = some i →
        dictGet o2d i = some num →
        downStep if_oper oid val o2d m =
          Except.ok
            (o2d,
              { m with down_power := dictInsert m.down_power num ((val : ℚ) / 10) })) := by
  refine ⟨?_, ?_, ?_, ?_⟩
  · have h : get_all_info seqSession synthModemEngine =
        Except.ok { Modeminfo.init with
          sysdescr := some (toString (7 : Int)), down_freq := [(5, 600000000)],
          down_power := [(5, ((350 : Int) : ℚ) / 10)], down_non_oper := [5] } := rfl
    rw [h]
    norm_num [Modeminfo.init]
  · intro if_oper oid val o2d m i st h0 h1 hif hst
    unfold downStep
    rw [h0, h1]
    simp [hif, hst]
  · intro if_oper oid val o2d m i num h0 h1 hnum
    unfold downStep
    rw [h0, h1]
    simp [hnum]
  · intro if_oper oid val o2d m i num h0 h1 hnum
    unfold downStep
    rw [h0, h1]
    simp [hnum]

theorem C3_channel_table_join_witness :
    downStep [(1, 2)] (DOCS_DOWNSTR_TREE ++ [1, 1]) 5 [] Modeminfo.init =
      Except.ok ([(1, 5)], { Modeminfo.init with down_non_oper := [5] }) ∧
    downStep [(1, 2)] (DOCS_DOWNSTR_TREE ++ [2, 1]) 600000000 [(1, 5)]
        { Modeminfo.init with down_non_oper := [5] } =
      Except.ok ([(1, 5)], { Modeminfo.init with
        down_freq := [(5, 600000000)], down_non_oper := [5] }) := by
  constructor
  · exact C3_channel_table_join.2.1 [(1, 2)] (DOCS_DOWNSTR_TREE ++ [1, 1]) 5 []
      Modeminfo.init 1 2 (by decide) (by decide) (by decide) (by decide)
  · exact C3_channel_table_join.2.2.1 [(1, 2)] (DOCS_DOWNSTR_TREE ++ [2, 1])
      600000000 [(1, 5)] { Modeminfo.init with down_non_oper := [5] } 1 5
      (by decide) (by decide) (by decide)

/-- C4: get_all_info catches exactly SNMPTimeout (tagging the record
snmp_timeout) and gaierror (tagging it dns_nxdomain), in both cases
returning the record as populated so far; any other exception, in
particular SNMPError, propagates to the caller.  On the device whose
upstream walk times out after a successful downstream walk, the result
carries error snmp_timeout and retains the downstream fields. -/
theorem C4_error_policy :
    (∀ (s : EzSNMP) (eng : SnmpEngine) (m0 : Modeminfo),
        getAllInfoBody s eng = (m0, some PyExc.timeout) →
        get_all_info s eng = Except.ok { m0 with error := some "snmp_timeout" })
  ∧ (∀ (s : EzSNMP) (eng : SnmpEngine) (m0 : Modeminfo),
        getAllInfoBody s eng = (m0, some PyExc.gaierror) →
        get_all_info s eng = Except.ok { m0 with error := some "dns_nxdomain" })
  ∧ (∀ (s : EzSNMP) (eng : SnmpEngine) (m0 : Modeminfo),
        getAllInfoBody s eng = (m0, none) → get_all_info s eng = Except.ok m0)
  ∧ (∀ (s : EzSNMP) (eng : SnmpEngine) (m0 : Modeminfo) (e : PyExc),
        getAllInfoBody s eng = (m0, some e) → ¬ e = PyExc.timeout →
        ¬ e = PyExc.gaierror → get_all_info s eng = Except.error e)
  ∧ (get_all_info seqSession upTimeoutEngine =
      Except.ok { Modeminfo.init with
        sysdescr := some (toString (7 : Int)), error := some "snmp_timeout",
        down_freq := [(5, 600000000)], down_power := [(5, 35)],
        down_non_oper := [5] }) := by
  refine ⟨?_, ?_, ?_, ?_, ?_⟩
  · intro s eng m0 h
    unfold get_all_info
    rw [h]
  · intro s eng m0 h
    unfold get_all_info
    rw [h]
  · intro s eng m0 h
    unfold get_all_info
    rw [h]
  · intro s eng m0 e h ht hg
    unfold get_all_info
    rw [h]
    cases e with
    | timeout => exact absurd rfl ht
    | gaierror => exact absurd rfl hg
    | snmpError st ix => rfl
    | keyError => rfl
    | indexError => rfl
  · have h : get_all_info seqSession upTimeoutEngine =
        Except.ok { Modeminfo.init with
          sysdescr := some (toString (7 : Int)), error := some "snmp_timeout",
          down_freq := [(5, 600000000)],
          down_power := [(5, ((350 : Int) : ℚ) / 10)], down_non_oper := [5] } := rfl
    rw [h]
    norm_num [Modeminfo.init]

theorem C4_error_policy_witness :
    get_all_info seqSession upTimeoutEngine =
      Except.ok { Modeminfo.init with
        sysdescr := some (toString (7 : Int)), error := some "snmp_timeout",
        down_freq := [(5, 600000000)],
        down_power := [(5, ((350 : Int) : ℚ) / 10)], down_non_oper := [5] } :=
  C4_error_policy.1 seqSession upTimeoutEngine
    { Modeminfo.init with
      sysdescr := some (toString (7 : Int)),
      down_freq := [(5, 600000000)],
      down_power := [(5, ((350 : Int) : ℚ) / 10)], down_non_oper := [5] } rfl

/-- C8: a non-channel-ID row whose raw row index was never recorded by
the channel-ID column raises KeyError at that point, in the downstream
loop, the upstream loop and the secondary-table re-keying alike; the
error aborts the remainder of the processed list and propagates through
get_all_info uncaught, as on the concrete device whose downstream table
carries a frequency row with no channel-ID row. -/
theorem C8_missing_index_keyerror :
    (∀ (if_oper : List (Nat × Int)) (oid : List Nat) (val : Int)
        (o2d : List (Nat × Int)) (m : Modeminfo) (c i : Nat),
        (oid.drop DOCS_DOWNSTR_TREE.length).get? 0 = some c →
        (oid.drop DOCS_DOWNSTR_TREE.length).get? 1 = some i → ¬ c = 1 →
        dictGet o2d i = none →
        downStep if_oper oid val o2d m = Except.error PyExc.keyError)
  ∧ (∀ (if_oper : List (Nat × Int)) (oid : List Nat) (val : Int)
        (o2u : List (Nat × Int)) (m : Modeminfo) (c i : Nat),
        (oid.drop DOCS_DOWNSTR_TREE.length).get? 0 = some c →
        (oid.drop DOCS_DOWNSTR_TREE.length).get? 1 = some i → ¬ c = 1 →
        dictGet o2u i = none →
        upStep if_oper oid val o2u m = Except.error PyExc.keyError)
  ∧ (∀ (if_oper : List (Nat × Int)) (l1 : List (List Nat × Int))
        (oid : List Nat) (val : Int) (l2 : List (List Nat × Int))
        (o2d o2d1 : List (Nat × Int)) (m m1 : Modeminfo),
        processDown if_oper l1 o2d m = Except.ok (o2d1, m1) →
        downStep if_oper oid val o2d1 m1 = Except.error PyExc.keyError →
        processDown if_oper (l1 ++ (oid, val) :: l2) o2d m =
          Except.error PyExc.keyError)
  ∧ (∀ (α : Type) (o2d : List (Nat × Int)) (k : Nat) (v : α)
        (rest : List (Nat × α)) (d : List (Int × α)),
        dictGet o2d k = none →
        rekeyThrough o2d ((k, v) :: rest) d = Except.error PyExc.keyError)
  ∧ (∀ (s : EzSNMP) (eng : SnmpEngine) (m0 : Modeminfo),
        getAllInfoBody s eng = (m0, some PyExc.keyError) →
        get_all_info s eng = Except.error PyExc.keyError)
  ∧ (get_all_info seqSession missingIndexEngine = Except.error PyExc.keyError) := by
  refine ⟨?_, ?_, ?_, ?_, ?_, rfl⟩
  · intro if_oper oid val o2d m c i h0 h1 hc hnone
    unfold downStep
    rw [h0, h1]
    simp [hc, hnone]
  · intro if_oper oid val o2u m c i h0 h1 hc hnone
    unfold upStep
    rw [h0, h1]
    simp [hc, hnone]
  · intro if_oper l1 oid val l2 o2d o2d1 m m1 hok hbad
    rw [processDown_append if_oper l1 ((oid, val) :: l2) o2d m, hok]
    simp only [processDown]
    rw [hbad]
  · intro α o2d k v rest d hnone
    simp only [rekeyThrough, hnone]
  · intro s eng m0 h
    unfold get_all_info
    rw [h]

theorem C8_missing_index_keyerror_witness :
    downStep [] (DOCS_DOWNSTR_TREE ++ [2, 1]) 600000000 [] Modeminfo.init =
        Except.error PyExc.keyError ∧
      processDown [] [(DOCS_DOWNSTR_TREE ++ [1, 1], 5),
          (DOCS_DOWNSTR_TREE ++ [2, 7], 600000000)] [] Modeminfo.init =
        Except.error PyExc.keyError := by
  constructor
  · exact C8_missing_index_keyerror.1 [] (DOCS_DOWNSTR_TREE ++ [2, 1]) 600000000
      [] Modeminfo.init 2 1 (by decide) (by decide) (by decide) rfl
  · exact C8_missing_index_keyerror.2.2.1 [] [(DOCS_DOWNSTR_TREE ++ [1, 1], 5)]
      (DOCS_DOWNSTR_TREE ++ [2, 7]) 600000000 [] [] [(1, 5)] Modeminfo.init
      { Modeminfo.init with down_non_oper := Modeminfo.init.down_non_oper }
      (by rfl)
      (C8_missing_index_keyerror.1 [] (DOCS_DOWNSTR_TREE ++ [2, 7]) 600000000
        [(1, 5)] { Modeminfo.init with
          down_non_oper := Modeminfo.init.down_non_oper } 2 7
        (by decide) (by decide) (by decide) rfl)

/-- Every record getAllInfoBody can produce, partial or complete,
satisfies the channel-key invariant: downstream per-channel mapping keys
come from the downstream channel-ID column, upstream mapping keys from
the upstream channel-ID column, and every non-operational entry is
justified by a channel-ID entry whose interface status resolved to a
value other than 1. -/
theorem getAllInfoBody_inv (s : EzSNMP) (eng : SnmpEngine) (m0 : Modeminfo)
    (e0 : Option PyExc) (hbody : getAllInfoBody s eng = (m0, e0)) :
    (∀ k, k ∈ m0.down_freq.map Prod.fst → k ∈ downChannelIds s eng)
  ∧ (∀ k, k ∈ m0.down_bw.map Prod.fst → k ∈ downChannelIds s eng)
  ∧ (∀ k, k ∈ m0.down_mod.map Prod.fst → k ∈ downChannelIds s eng)
  ∧ (∀ k, k ∈ m0.down_power.map Prod.fst → k ∈ downChannelIds s eng)
  ∧ (∀ k, k ∈ m0.down_snr.map Prod.fst → k ∈ downChannelIds s eng)
  ∧ (∀ k, k ∈ m0.down_cw_unerroreds.map Prod.fst → k ∈ downChannelIds s eng)
  ∧ (∀ k, k ∈ m0.down_cw_correcteds.map Prod.fst → k ∈ downChannelIds s eng)
  ∧ (∀ k, k ∈ m0.down_cw_uncorrectables.map Prod.fst → k ∈ downChannelIds s eng)
  ∧ (∀ k, k ∈ m0.up_freq.map Prod.fst → k ∈ upChannelIds s eng)
  ∧ (∀ k, k ∈ m0.up_bw.map Prod.fst → k ∈ upChannelIds s eng)
  ∧ (∀ k, k ∈ m0.up_timingoffset.map Prod.fst → k ∈ upChannelIds s eng)
  ∧ (∀ ch, ch ∈ m0.down_non_oper →
      ∃ p, p ∈ downWalkList s eng ∧
        (p.1.drop DOCS_DOWNSTR_TREE.length).get? 0 = some 1 ∧ p.2 = ch ∧
        ∃ i, (p.1.drop DOCS_DOWNSTR_TREE.length).get? 1 = some i ∧
          ∃ st, dictGet (ifOperMap s eng) i = some st ∧ ¬ st = 1)
  ∧ (∀ ch, ch ∈ m0.up_non_oper →
      ∃ p, p ∈ upWalkList s eng ∧
        (p.1.drop DOCS_DOWNSTR_TREE.length).get? 0 = some 1 ∧ p.2 = ch ∧
        ∃ i, (p.1.drop DOCS_DOWNSTR_TREE.length).get? 1 = some i ∧
          ∃ st, dictGet (ifOperMap s eng) i = some st ∧ ¬ st = 1) := by
  unfold getAllInfoBody at hbody
  cases hsd : sysdescr s eng with
  | error e =>
      rw [hsd] at hbody
      simp only [Prod.mk.injEq] at hbody
      obtain ⟨h1, h2⟩ := hbody
      subst h1
      refine ⟨?_, ?_, ?_, ?_, ?_, ?_, ?_, ?_, ?_, ?_, ?_, ?_, ?_⟩ <;>
        exact fun a ha => absurd ha (by simp [Modeminfo.init])
  | ok d =>
  rw [hsd] at hbody
  simp only [] at hbody
  cases hio : walk_ifoperstatus s eng with
  | error e =>
      rw [hio] at hbody
      simp only [Prod.mk.injEq] at hbody
      obtain ⟨h1, h2⟩ := hbody
      subst h1
      refine ⟨?_, ?_, ?_, ?_, ?_, ?_, ?_, ?_, ?_, ?_, ?_, ?_, ?_⟩ <;>
        exact fun a ha => absurd ha (by simp [Modeminfo.init])
  | ok if_oper =>
  rw [hio] at hbody
  simp only [] at hbody
  cases hdw : s.walk_iter eng (fun v => v) DOCS_DOWNSTR_TREE with
  | error e =>
      rw [hdw] at hbody
      simp only [Prod.mk.injEq] at hbody
      obtain ⟨h1, h2⟩ := hbody
      subst h1
      refine ⟨?_, ?_, ?_, ?_, ?_, ?_, ?_, ?_, ?_, ?_, ?_, ?_, ?_⟩ <;>
        exact fun a ha => absurd ha (by simp [Modeminfo.init])
  | ok downl =>
  rw [hdw] at hbody
  simp only [] at hbody
  cases hpd : processDown if_oper downl [] { Modeminfo.init with sysdescr := some d } with
  | error e =>
      rw [hpd] at hbody
      simp only [Prod.mk.injEq] at hbody
      obtain ⟨h1, h2⟩ := hbody
      subst h1
      refine ⟨?_, ?_, ?_, ?_, ?_, ?_, ?_, ?_, ?_, ?_, ?_, ?_, ?_⟩ <;>
        exact fun a ha => absurd ha (by simp [Modeminfo.init])
  | ok s1 =>
  obtain ⟨oid2down, m2⟩ := s1
  rw [hpd] at hbody
  simp only [] at hbody
  have hdlist : downWalkList s eng = downl := by unfold downWalkList; rw [hdw]
  have hiom : ifOperMap s eng = if_oper := by unfold ifOperMap; rw [hio]
  have hdc : downChannelIds s eng = col1Vals DOCS_DOWNSTR_TREE.length downl := by
    unfold downChannelIds
    rw [hdlist]
  obtain ⟨pdA, pdF, pdB, pdM, pdP, pdN,
    pd1, pd2, pd3, pd4, pd5, pd6, pd7, pd8, pd9, pd10⟩ :=
    processDown_inv if_oper downl [] { Modeminfo.init with sysdescr := some d }
      oid2down m2 hpd
  have hm2snr : m2.down_snr = [] := pd3.trans rfl
  have hm2unerr : m2.down_cw_unerroreds = [] := pd4.trans rfl
  have hm2corr : m2.down_cw_correcteds = [] := pd5.trans rfl
  have hm2uncorr : m2.down_cw_uncorrectables = [] := pd6.trans rfl
  have hm2upf : m2.up_freq = [] := pd7.trans rfl
  have hm2upb : m2.up_bw = [] := pd8.trans rfl
  have hm2upt : m2.up_timingoffset = [] := pd9.trans rfl
  have hm2upn : m2.up_non_oper = [] := pd10.trans rfl
  have DVals : ∀ x, x ∈ oid2down.map Prod.snd → x ∈ downChannelIds s eng := by
    intro x hx
    rcases pdA x hx with h | h
    · exact absurd h (by simp)
    · rw [hdc]; exact h
  have DF : ∀ k, k ∈ m2.down_freq.map Prod.fst → k ∈ downChannelIds s eng := by
    intro k hk
    rcases pdF k hk with h | h | h
    · exact absurd h (by simp [Modeminfo.init])
    · exact absurd h (by simp)
    · rw [hdc]; exact h
  have DB : ∀ k, k ∈ m2.down_bw.map Prod.fst → k ∈ downChannelIds s eng := by
    intro k hk
    rcases pdB k hk with h | h | h
    · exact absurd h (by simp [Modeminfo.init])
    · exact absurd h (by simp)
    · rw [hdc]; exact h
  have DM : ∀ k, k ∈ m2.down_mod.map Prod.fst → k ∈ downChannelIds s eng := by
    intro k hk
    rcases pdM k hk with h | h | h
    · exact absurd h (by simp [Modeminfo.init])
    · exact absurd h (by simp)
    · rw [hdc]; exact h
  have DP : ∀ k, k ∈ m2.down_power.map Prod.fst → k ∈ downChannelIds s eng := by
    intro k hk
    rcases pdP k hk with h | h | h
    · exact absurd h (by simp [Modeminfo.init])
    · exact absurd h (by simp)
    · rw [hdc]; exact h
  have DN : ∀ ch, ch ∈ m2.down_non_oper →
      ∃ p, p ∈ downWalkList s eng ∧
        (p.1.drop DOCS_DOWNSTR_TREE.length).get? 0 = some 1 ∧ p.2 = ch ∧
        ∃ i, (p.1.drop DOCS_DOWNSTR_TREE.length).get? 1 = some i ∧
          ∃ st, dictGet (ifOperMap s eng) i = some st ∧ ¬ st = 1 := by
    intro ch hch
    rcases pdN ch hch with h | ⟨p, hp, hrest⟩
    · exact absurd h (by simp [Modeminfo.init])
    · rw [hdlist, hiom]
      exact ⟨p, hp, hrest⟩
  cases hup : s.walk_iter eng (fun v => v) DOCS_UPSTR_TREE with
  | error e =>
      rw [hup] at hbody
      simp only [Prod.mk.injEq] at hbody
      obtain ⟨h1, h2⟩ := hbody
      subst h1
      refine ⟨DF, DB, DM, DP, ?_, ?_, ?_, ?_, ?_, ?_, ?_, DN, ?_⟩
      · exact fun a ha => absurd ha (by rw [hm2snr]; simp)
      · exact fun a ha => absurd ha (by rw [hm2unerr]; simp)
      · exact fun a ha => absurd ha (by rw [hm2corr]; simp)
      · exact fun a ha => absurd ha (by rw [hm2uncorr]; simp)
      · exact fun a ha => absurd ha (by rw [hm2upf]; simp)
      · exact fun a ha => absurd ha (by rw [hm2upb]; simp)
      · exact fun a ha => absurd ha (by rw [hm2upt]; simp)
      · exact fun a ha => absurd ha (by rw [hm2upn]; simp)
  | ok upl =>
  rw [hup] at hbody
  simp only [] at hbody
  cases hpu : processUp if_oper upl [] m2 with
  | error e =>
      rw [hpu] at hbody
      simp only [Prod.mk.injEq] at hbody
      obtain ⟨h1, h2⟩ := hbody
      subst h1
      refine ⟨DF, DB, DM, DP, ?_, ?_, ?_, ?_, ?_, ?_, ?_, DN, ?_⟩
      · exact fun a ha => absurd ha (by rw [hm2snr]; simp)
      · exact fun a ha => absurd ha (by rw [hm2unerr]; simp)
      · exact fun a ha => absurd ha (by rw [hm2corr]; simp)
      · exact fun a ha => absurd ha (by rw [hm2uncorr]; simp)
      · exact fun a ha => absurd ha (by rw [hm2upf]; simp)
      · exact fun a ha => absurd ha (by rw [hm2upb]; simp)
      · exact fun a ha => absurd ha (by rw [hm2upt]; simp)
      · exact fun a ha => absurd ha (by rw [hm2upn]; simp)
  | ok s2 =>
  obtain ⟨oid2up, m3⟩ := s2
  rw [hpu] at hbody
  simp only [] at hbody
  have hulist : upWalkList s eng = upl := by unfold upWalkList; rw [hup]
  have hlen : DOCS_UPSTR_TREE.length = DOCS_DOWNSTR_TREE.length := rfl
  have huc : upChannelIds s eng = col1Vals DOCS_DOWNSTR_TREE.length upl := by
    unfold upChannelIds
    rw [hulist, hlen]
  obtain ⟨puA, puF, puB, puT, puN,
    pu1, pu2, pu3, pu4, pu5, pu6, pu7, pu8, pu9, pu10, pu11⟩ :=
    processUp_inv if_oper upl [] m2 oid2up m3 hpu
  have UF : ∀ k, k ∈ m3.up_freq.map Prod.fst → k ∈ upChannelIds s eng := by
    intro k hk
    rcases puF k hk with h | h | h
    · exact absurd h (by rw [hm2upf]; simp)
    · exact absurd h (by simp)
    · rw [huc]; exact h
  have UB : ∀ k, k ∈ m3.up_bw.map Prod.fst → k ∈ upChannelIds s eng := by
    intro k hk
    rcases puB k hk with h | h | h
    · exact absurd h (by rw [hm2upb]; simp)
    · exact absurd h (by simp)
    · rw [huc]; exact h
  have UT : ∀ k, k ∈ m3.up_timingoffset.map Prod.fst → k ∈ upChannelIds s eng := by
    intro k hk
    rcases puT k hk with h | h | h
    · exact absurd h (by rw [hm2upt]; simp)
    · exact absurd h (by simp)
    · rw [huc]; exact h
  have UN : ∀ ch, ch ∈ m3.up_non_oper →
      ∃ p, p ∈ upWalkList s eng ∧
        (p.1.drop DOCS_DOWNSTR_TREE.length).get? 0 = some 1 ∧ p.2 = ch ∧
        ∃ i, (p.1.drop DOCS_DOWNSTR_TREE.length).get? 1 = some i ∧
          ∃ st, dictGet (ifOperMap s eng) i = some st ∧ ¬ st = 1 := by
    intro ch hch
    rcases puN ch hch with h | ⟨p, hp, hrest⟩
    · exact absurd h (by rw [hm2upn]; simp)
    · rw [hulist, hiom]
      exact ⟨p, hp, hrest⟩
  have DF3 : ∀ k, k ∈ m3.down_freq.map Prod.fst → k ∈ downChannelIds s eng :=
    fun k hk => DF k (pu3 ▸ hk)
  have DB3 : ∀ k, k ∈ m3.down_bw.map Prod.fst → k ∈ downChannelIds s eng :=
    fun k hk => DB k (pu4 ▸ hk)
  have DM3 : ∀ k, k ∈ m3.down_mod.map Prod.fst → k ∈ downChannelIds s eng :=
    fun k hk => DM k (pu5 ▸ hk)
  have DP3 : ∀ k, k ∈ m3.down_power.map Prod.fst → k ∈ downChannelIds s eng :=
    fun k hk => DP k (pu6 ▸ hk)
  have DN3 : ∀ ch, ch ∈ m3.down_non_oper →
      ∃ p, p ∈ downWalkList s eng ∧
        (p.1.drop DOCS_DOWNSTR_TREE.length).get? 0 = some 1 ∧ p.2 = ch ∧
        ∃ i, (p.1.drop DOCS_DOWNSTR_TREE.length).get? 1 = some i ∧
          ∃ st, dictGet (ifOperMap s eng) i = some st ∧ ¬ st = 1 :=
    fun ch hch => DN ch (pu7 ▸ hch)
  have hm3snr : m3.down_snr = [] := pu8.trans hm2snr
  have hm3unerr : m3.down_cw_unerroreds = [] := pu9.trans hm2unerr
  have hm3corr : m3.down_cw_correcteds = [] := pu10.trans hm2corr
  have hm3uncorr : m3.down_cw_uncorrectables = [] := pu11.trans hm2uncorr
  cases hsn : walk_downstr_snr s eng with
  | error e =>
      rw [hsn] at hbody
      simp only [Prod.mk.injEq] at hbody
      obtain ⟨h1, h2⟩ := hbody
      subst h1
      refine ⟨DF3, DB3, DM3, DP3, ?_, ?_, ?_, ?_, UF, UB, UT, DN3, UN⟩
      · exact fun a ha => absurd ha (by rw [hm3snr]; simp)
      · exact fun a ha => absurd ha (by rw [hm3unerr]; simp)
      · exact fun a ha => absurd ha (by rw [hm3corr]; simp)
      · exact fun a ha => absurd ha (by rw [hm3uncorr]; simp)
  | ok snrd =>
  rw [hsn] at hbody
  simp only [] at hbody
  cases hrk : rekeyThrough oid2down snrd m3.down_snr with
  | error e =>
      rw [hrk] at hbody
      simp only [Prod.mk.injEq] at hbody
      obtain ⟨h1, h2⟩ := hbody
      subst h1
      refine ⟨DF3, DB3, DM3, DP3, ?_, ?_, ?_, ?_, UF, UB, UT, DN3, UN⟩
      · exact fun a ha => absurd ha (by rw [hm3snr]; simp)
      · exact fun a ha => absurd ha (by rw [hm3unerr]; simp)
      · exact fun a ha => absurd ha (by rw [hm3corr]; simp)
      · exact fun a ha => absurd ha (by rw [hm3uncorr]; simp)
  | ok snr2 =>
  rw [hrk] at hbody
  simp only [] at hbody
  have SNR : ∀ k, k ∈ snr2.map Prod.fst → k ∈ downChannelIds s eng := by
    intro k hk
    rcases rekeyThrough_keys oid2down snrd m3.down_snr snr2 hrk k hk with h | h
    · exact absurd h (by rw [hm3snr]; simp)
    · exact DVals k h
  cases hcw1 : walk_downstr_cw_correcteds s eng with
  | error e =>
      rw [hcw1] at hbody
      simp only [Prod.mk.injEq] at hbody
      obtain ⟨h1, h2⟩ := hbody
      subst h1
      refine ⟨DF3, DB3, DM3, DP3, SNR, ?_, ?_, ?_, UF, UB, UT, DN3, UN⟩
      · exact fun a ha => absurd ha (by rw [hm3unerr]; simp)
      · exact fun a ha => absurd ha (by rw [hm3corr]; simp)
      · exact fun a ha => absurd ha (by rw [hm3uncorr]; simp)
  | ok corrd =>
  rw [hcw1] at hbody
  simp only [] at hbody
  cases hrk2 : rekeyThrough oid2down corrd ([] : List (Int × Int)) with
  | error e =>
      rw [hrk2] at hbody
      simp only [Prod.mk.injEq] at hbody
      obtain ⟨h1, h2⟩ := hbody
      subst h1
      refine ⟨DF3, DB3, DM3, DP3, SNR, ?_, ?_, ?_, UF, UB, UT, DN3, UN⟩
      · exact fun a ha => absurd ha (by rw [hm3unerr]; simp)
      · exact fun a ha => absurd ha (by rw [hm3corr]; simp)
      · exact fun a ha => absurd ha (by rw [hm3uncorr]; simp)
  | ok corr2 =>
  rw [hrk2] at hbody
  simp only [] at hbody
  have CORR : ∀ k, k ∈ corr2.map Prod.fst → k ∈ downChannelIds s eng := by
    intro k hk
    rcases rekeyThrough_keys oid2down corrd [] corr2 hrk2 k hk with h | h
    · exact absurd h (by simp)
    · exact DVals k h
  cases hcw2 : walk_downstr_cw_unerroreds s eng with
  | error e =>
      rw [hcw2] at hbody
      simp only [Prod.mk.injEq] at hbody
      obtain ⟨h1, h2⟩ := hbody
      subst h1
      refine ⟨DF3, DB3, DM3, DP3, SNR, ?_, CORR, ?_, UF, UB, UT, DN3, UN⟩
      · exact fun a ha => absurd ha (by rw [hm3unerr]; simp)
      · exact fun a ha => absurd ha (by rw [hm3uncorr]; simp)
  | ok unerrd =>
  rw [hcw2] at hbody
  simp only [] at hbody
  cases hrk3 : rekeyThrough oid2down unerrd ([] : List (Int × Int)) with
  | error e =>
      rw [hrk3] at hbody
      simp only [Prod.mk.injEq] at hbody
      obtain ⟨h1, h2⟩ := hbody
      subst h1
      refine ⟨DF3, DB3, DM3, DP3, SNR, ?_, CORR, ?_, UF, UB, UT, DN3, UN⟩
      · exact fun a ha => absurd ha (by rw [hm3unerr]; simp)
      · exact fun a ha => absurd ha (by rw [hm3uncorr]; simp)
  | ok unerr2 =>
  rw [hrk3] at hbody
  simp only [] at hbody
  have UNERR : ∀ k, k ∈ unerr2.map Prod.fst → k ∈ downChannelIds s eng := by
    intro k hk
    rcases rekeyThrough_keys oid2down unerrd [] unerr2 hrk3 k hk with h | h
    · exact absurd h (by simp)
    · exact DVals k h
  cases hcw3 : walk_downstr_cw_uncorrectables s eng with
  | error e =>
      rw [hcw3] at hbody
      simp only [Prod.mk.injEq] at hbody
      obtain ⟨h1, h2⟩ := hbody
      subst h1
      refine ⟨DF3, DB3, DM3, DP3, SNR, UNERR, CORR, ?_, UF, UB, UT, DN3, UN⟩
      exact fun a ha => absurd ha (by rw [hm3uncorr]; simp)
  | ok uncord =>
  rw [hcw3] at hbody
  simp only [] at hbody
  cases hrk4 : rekeyThrough oid2down uncord ([] : List (Int × Int)) with
  | error e =>
      rw [hrk4] at hbody
      simp only [Prod.mk.injEq] at hbody
      obtain ⟨h1, h2⟩ := hbody
      subst h1
      refine ⟨DF3, DB3, DM3, DP3, SNR, UNERR, CORR, ?_, UF, UB, UT, DN3, UN⟩
      exact fun a ha => absurd ha (by rw [hm3uncorr]; simp)
  | ok uncor2 =>
  rw [hrk4] at hbody
  simp only [Prod.mk.injEq] at hbody
  obtain ⟨h1, h2⟩ := hbody
  subst h1
  have UNCORR : ∀ k, k ∈ uncor2.map Prod.fst → k ∈ downChannelIds s eng := by
    intro k hk
    rcases rekeyThrough_keys oid2down uncord [] uncor2 hrk4 k hk with h | h
    · exact absurd h (by simp)
    · exact DVals k h
  exact ⟨DF3, DB3, DM3, DP3, SNR, UNERR, CORR, UNCORR, UF, UB, UT, DN3, UN⟩

/-- C7: in every record get_all_info returns, the key set of each
per-channel mapping is a subset of the logical channel numbers carried
by the channel-ID column of the corresponding table walk, and a channel
number appears in down_non_oper or up_non_oper only with a justifying
channel-ID row whose raw index resolved in the ifOperStatus mapping to a
value other than 1. -/
theorem C7_key_invariant :
    ∀ (s : EzSNMP) (eng : SnmpEngine) (m : Modeminfo),
    get_all_info s eng = Except.ok m →
    (∀ k, k ∈ m.down_freq.map Prod.fst → k ∈ downChannelIds s eng)
  ∧ (∀ k, k ∈ m.down_bw.map Prod.fst → k ∈ downChannelIds s eng)
  ∧ (∀ k, k ∈ m.down_mod.map Prod.fst → k ∈ downChannelIds s eng)
  ∧ (∀ k, k ∈ m.down_power.map Prod.fst → k ∈ downChannelIds s eng)
  ∧ (∀ k, k ∈ m.down_snr.map Prod.fst → k ∈ downChannelIds s eng)
  ∧ (∀ k, k ∈ m.down_cw_unerroreds.map Prod.fst → k ∈ downChannelIds s eng)
  ∧ (∀ k, k ∈ m.down_cw_correcteds.map Prod.fst → k ∈ downChannelIds s eng)
  ∧ (∀ k, k ∈ m.down_cw_uncorrectables.map Prod.fst → k ∈ downChannelIds s eng)
  ∧ (∀ k, k ∈ m.up_freq.map Prod.fst → k ∈ upChannelIds s eng)
  ∧ (∀ k, k ∈ m.up_bw.map Prod.fst → k ∈ upChannelIds s eng)
  ∧ (∀ k, k ∈ m.up_timingoffset.map Prod.fst → k ∈ upChannelIds s eng)
  ∧ (∀ ch, ch ∈ m.down_non_oper →
      ∃ p, p ∈ downWalkList s eng ∧
        (p.1.drop DOCS_DOWNSTR_TREE.length).get? 0 = some 1 ∧ p.2 = ch ∧
        ∃ i, (p.1.drop DOCS_DOWNSTR_TREE.length).get? 1 = some i ∧
          ∃ st, dictGet (ifOperMap s eng) i = some st ∧ ¬ st = 1)
  ∧ (∀ ch, ch ∈ m.up_non_oper →
      ∃ p, p ∈ upWalkList s eng ∧
        (p.1.drop DOCS_DOWNSTR_TREE.length).get? 0 = some 1 ∧ p.2 = ch ∧
        ∃ i, (p.1.drop DOCS_DOWNSTR_TREE.length).get? 1 = some i ∧
          ∃ st, dictGet (ifOperMap s eng) i = some st ∧ ¬ st = 1) := by
  intro s eng m h
  unfold get_all_info at h
  cases hb : getAllInfoBody s eng with
  | mk m0 e0 =>
  rw [hb] at h
  have INV := getAllInfoBody_inv s eng m0 e0 hb
  cases e0 with
  | none =>
      simp only [Except.ok.injEq] at h
      subst h
      exact INV
  | some e =>
      cases e with
      | timeout =>
          simp only [Except.ok.injEq] at h
          subst h
          exact INV
      | gaierror =>
          simp only [Except.ok.injEq] at h
          subst h
          exact INV
      | snmpError st ix => exact absurd h (by simp)
      | keyError => exact absurd h (by simp)
      | indexError => exact absurd h (by simp)

theorem C7_key_invariant_witness :
    (5 : Int) ∈ downChannelIds seqSession synthModemEngine ∧
      (5 : Int) ∈ downChannelIds seqSession upTimeoutEngine := by
  constructor
  · exact (C7_key_invariant seqSession synthModemEngine
      { Modeminfo.init with
        sysdescr := some (toString (7 : Int)), down_freq := [(5, 600000000)],
        down_power := [(5, ((350 : Int) : ℚ) / 10)], down_non_oper := [5] }
      rfl).1 5 (by decide)
  · exact (C7_key_invariant seqSession upTimeoutEngine
      { Modeminfo.init with
        sysdescr := some (toString (7 : Int)), error := some "snmp_timeout",
        down_freq := [(5, 600000000)],
        down_power := [(5, ((350 : Int) : ℚ) / 10)], down_non_oper := [5] }
      rfl).1 5 (by decide)

theorem C9_empty_field_omission_witness :
    ("down_non_oper", FieldVal.intList [5]) ∈
        Modeminfo.to_dict { Modeminfo.init with down_non_oper := [5] } ∧
      ¬ "down_non_oper" = "up_freq" := by
  constructor
  · exact (C9_empty_field_omission.1
      { Modeminfo.init with down_non_oper := [5] } "down_non_oper"
      (FieldVal.intList [5])).mpr ⟨by decide, by decide⟩
  · exact (C9_empty_field_omission.2.2
      { Modeminfo.init with down_non_oper := [5] } rfl rfl rfl rfl
      "down_non_oper" (FieldVal.intList [5])
      ((C9_empty_field_omission.1 _ _ _).mpr ⟨by decide, by decide⟩)).1
